import Mathlib

/-!
# node-log: a shallow embedding of `src/logger.js`

The file embeds the `Logger` class of `src/logger.js` and states its behaviour as theorems.

Modelling conventions.

* A JavaScript value is a `JSValue`. Numbers are the integer-valued ones, objects are plain
  objects given by their own enumerable data properties in enumeration order, functions, symbols
  and accessor properties (the inherited `__proto__` accessor included) are outside the model.
* Code that can throw returns `Except JSError _`; the file runs in strict mode (line 1).
* The libraries the file calls are modelled by their documented behaviour: `_.forEach` and
  `_.isObject` of lodash as definitions, `json-stringify-safe` and the bunyan sinks as parameters.
-/

namespace NodeLog

/-! ## Values -/

/-- JavaScript values handled by the logger. `error` is an instance of `Error`, `obj` a plain
object listed by its own enumerable properties, `arr` an array without holes. -/
inductive JSValue where
  | undefined
  | null
  | bool (b : Bool)
  | num (n : Int)
  | str (s : String)
  | error (message : String)
  | obj (props : List (String × JSValue))
  | arr (items : List JSValue)

/-- Exceptions: a `TypeError` raised by the language, or a value thrown by an external sink. -/
inductive JSError where
  | typeError (message : String)
  | thrown (tag : String)
  deriving DecidableEq, Repr

/-- Own enumerable properties of a plain object, in enumeration order. -/
abbrev Props := List (String × JSValue)

namespace JSValue

/-- Lodash `_.isObject(value)`: true for objects, arrays and errors, false for primitives. -/
def isObject : JSValue → Bool
  | .error _ => true
  | .obj _ => true
  | .arr _ => true
  | _ => false

/-- JavaScript truthiness (`ToBoolean`). -/
def truthy : JSValue → Bool
  | .undefined => false
  | .null => false
  | .bool b => b
  | .num n => n != 0
  | .str s => s != ""
  | _ => true

/-- String form of a primitive value (`ToString`); objects are converted by `toStringJS`,
which only falls back on this function for primitives. -/
def primToString : JSValue → String
  | .undefined => "undefined"
  | .null => "null"
  | .bool b => if b then "true" else "false"
  | .num n => toString n
  | .str s => s
  | _ => ""

mutual
/-- Conversion `ToString(value)` as done by a template literal. A plain object gives
`[object Object]` unless an own `toString` property (never callable here) hides the inherited
method, which raises a `TypeError`; an array joins its elements with commas; an error gives
its name and message. -/
def toStringJS : JSValue → Except JSError String
  | .obj props =>
    if props.any (fun p => p.1 == "toString") then
      .error (.typeError "Cannot convert object to primitive value")
    else .ok "[object Object]"
  | .arr items => (elementStrings items).map (String.intercalate ",")
  | .error message => .ok (if message = "" then "Error" else "Error: " ++ message)
  | .undefined => .ok "undefined"
  | .null => .ok "null"
  | .bool b => .ok (if b then "true" else "false")
  | .num n => .ok (toString n)
  | .str s => .ok s
termination_by structural v => v
/-- String forms of the elements of an array as `Array.prototype.join` takes them:
`undefined` and `null` elements give the empty string. -/
def elementStrings : List JSValue → Except JSError (List String)
  | [] => .ok []
  | v :: rest =>
    let first : Except JSError String :=
      match v with
      | .undefined => .ok ""
      | .null => .ok ""
      | w => toStringJS w
    match first, elementStrings rest with
    | .ok s, .ok ss => .ok (s :: ss)
    | .error e, _ => .error e
    | _, .error e => .error e
termination_by structural items => items
end

end JSValue

open JSValue

/-- Read of an own property: `props[key]`, `none` when the key is absent. -/
def getProp (props : Props) (key : String) : Option JSValue :=
  (props.find? (fun p => p.1 == key)).map Prod.snd

/-- Test `key in props` restricted to own properties. -/
def hasProp (props : Props) (key : String) : Bool :=
  props.any (fun p => p.1 == key)

/-- Assignment `table[key] = value` on a table of named entries: an existing key keeps its
place and takes the new value, a new key is added at the end. -/
def setEntry {α : Type} : List (String × α) → String → α → List (String × α)
  | [], key, value => [(key, value)]
  | (k, v) :: rest, key, value =>
    if k = key then (k, value) :: rest else (k, v) :: setEntry rest key value

/-- Assignment `props[key] = value` on a plain object. -/
def setProp (props : Props) (key : String) (value : JSValue) : Props :=
  setEntry props key value

/-- Lodash `isLength`: a non-negative integer not above `Number.MAX_SAFE_INTEGER`. -/
def isLength (n : Int) : Bool :=
  decide (0 ≤ n) && decide (n ≤ 9007199254740991)

/-- Pairs `(value, key)` that `_.forEach(collection, iteratee)` hands to its iteratee, in order.
Arrays and strings are visited by index with a numeric key. An object whose `length` property
is a valid length is array-like for lodash and is visited by index as well; every other
object is visited by own enumerable key. Other values are not iterated. -/
def forEachEntries : JSValue → List (JSValue × JSValue)
  | .arr items => items.enum.map (fun p => (p.2, .num p.1))
  | .str s => s.toList.enum.map (fun p => (.str (String.singleton p.2), .num p.1))
  | .obj props =>
    match getProp props "length" with
    | some (.num n) =>
      if isLength n then
        (List.range n.toNat).map
          (fun i => ((getProp props (toString i)).getD .undefined, .num i))
      else props.map (fun p => (p.2, .str p.1))
    | _ => props.map (fun p => (p.2, .str p.1))
  | _ => []

/-! ## Redaction: `removeSensitiveData` (lines 41-59) -/

/-- Test whether `pat` occurs as a contiguous run inside the given text. -/
def containsRun (pat : List Char) : List Char → Bool
  | [] => pat.isEmpty
  | c :: cs => pat.isPrefixOf (c :: cs) || containsRun pat cs

/-- The alternatives of the pattern `/password|authorization|cookie|pin/gi`. -/
def sensitiveTerms : List String := ["password", "authorization", "cookie", "pin"]

/-- Truthiness of `key.match(/password|authorization|cookie|pin/gi)` for a string key:
some alternative occurs in the key, letters compared without case. -/
def matchesSensitive (key : String) : Bool :=
  sensitiveTerms.any (fun t => containsRun t.toList (key.toList.map Char.toLower))

/-- The expression `key.match(...)` of line 50. Only strings have a `match` method, so a
numeric key (an index of an array-like collection) raises a `TypeError`. -/
def keyMatch : JSValue → Except JSError Bool
  | .str k => .ok (matchesSensitive k)
  | _ => .error (.typeError "key.match is not a function")

/-- The call `this.removeSensitiveData(value)` of line 47. The iteratee is a plain `function`
that lodash calls without a receiver, so in strict mode `this` is `undefined` and reading
the property raises a `TypeError`. -/
def thisRemoveSensitiveData (_value : JSValue) : Except JSError JSValue :=
  .error (.typeError "Cannot read property removeSensitiveData of undefined")

/-- Property key under which `newObj[key] = value` stores (`ToPropertyKey`). -/
def propertyKey : JSValue → String
  | .str k => k
  | v => primToString v

/-- The `try` block of lines 46-52 applied to the object built so far. -/
def removeSensitiveDataTry (newObj : Props) (value key : JSValue) : Except JSError Props := do
  let value ← if value.isObject then thisRemoveSensitiveData value else pure value
  let hit ← keyMatch key
  if !hit then pure (setProp newObj (propertyKey key) value) else pure newObj

/-- One call of the iteratee of lines 44-56: the `try` block, and on an exception the `catch`
block, which stores the (still unchanged) value under the key. -/
def removeSensitiveDataStep (newObj : Props) (entry : JSValue × JSValue) : Props :=
  match removeSensitiveDataTry newObj entry.1 entry.2 with
  | .ok result => result
  | .error _ => setProp newObj (propertyKey entry.2) entry.1

/-- Own properties of the object returned by `removeSensitiveData(obj)`. -/
def removeSensitiveDataProps (obj : JSValue) : Props :=
  (forEachEntries obj).foldl removeSensitiveDataStep []

/-- The method `removeSensitiveData(obj)` of lines 41-59. -/
def removeSensitiveData (obj : JSValue) : JSValue :=
  .obj (removeSensitiveDataProps obj)

/-! ## Argument fold of `log` (lines 184-210) -/

/-- States of the variable `modifiedArguments`: still `undefined`, an object created by a
literal `{}` and filled since, or a string. -/
inductive Acc where
  | unset
  | record (props : Props)
  | text (s : String)

namespace Acc

/-- The value held by the variable. -/
def toValue : Acc → JSValue
  | .unset => .undefined
  | .record props => .obj props
  | .text s => .str s

/-- The test `!modifiedArguments`. -/
def falsy (acc : Acc) : Bool := !acc.toValue.truthy

/-- Assignment `modifiedArguments[key] = value` in strict mode: it stores into an object and
raises a `TypeError` on a string or on `undefined`. -/
def assign (acc : Acc) (key : String) (value : JSValue) : Except JSError Acc :=
  match acc with
  | .record props => .ok (.record (setProp props key value))
  | .text _ => .error (.typeError "Cannot create property on string")
  | .unset => .error (.typeError "Cannot set property of undefined")

/-- Lines 203-208 for a primitive `value`: `modifiedArguments` is replaced by the empty
string when it is falsy, then extended by the string form of the value and by one space.
When it holds an object, `+=` first converts that object to a primitive: a plain object gives
`[object Object]`, unless an own `toString` property (never callable here) hides the
inherited method, in which case the conversion raises a `TypeError`. -/
def appendScalar (acc : Acc) (value : JSValue) : Except JSError Acc :=
  match acc with
  | .unset => .ok (.text ("" ++ value.primToString ++ " "))
  | .text s => .ok (.text ((if s = "" then "" else s) ++ value.primToString ++ " "))
  | .record props =>
    if hasProp props "toString" then .error (.typeError "Cannot convert object to primitive value")
    else .ok (.text ("[object Object]" ++ value.primToString ++ " "))

end Acc

/-- Result of `Object.keys(value)` for a value that passed `_.isObject`. -/
def objectKeys : JSValue → List String
  | .obj props => props.map Prod.fst
  | .arr items => (List.range items.length).map toString
  | _ => []

/-- Read `value[key]` for a key taken from `Object.keys(value)`. -/
def readKey (value : JSValue) (key : String) : JSValue :=
  match value with
  | .obj props => (getProp props key).getD .undefined
  | .arr items => ((items.enum.find? (fun p => toString p.1 == key)).map Prod.snd).getD .undefined
  | _ => .undefined

/-- One call of the iteratee of lines 186-210 on the accumulator `modifiedArguments`. -/
def logStep (acc : Acc) (value : JSValue) : Except JSError Acc :=
  match value with
  | .error _ =>
    (if acc.falsy then Acc.record [] else acc).assign "err" value
  | .obj _ | .arr _ =>
    (objectKeys value).foldlM (fun a key => a.assign key (readKey value key))
      (if acc.falsy then Acc.record [] else acc)
  | _ => acc.appendScalar value

/-- The loop of lines 186-210 over the argument list: the final state of `modifiedArguments`,
or the exception that ended the loop. -/
def foldArgs (args : List JSValue) : Except JSError Acc :=
  args.foldlM logStep Acc.unset

/-- The value that `log` builds from its arguments and hands to the streams. -/
def buildRecord (args : List JSValue) : Except JSError JSValue :=
  (foldArgs args).map Acc.toValue

/-! ## Construction (lines 10-39 and 104-180) -/

/-- Read `base.name` for the option names of the constructor (none of them is defined by a
built-in prototype): a `TypeError` on `undefined` and `null`, the own property of a plain
object, `undefined` otherwise. -/
def getMember (base : JSValue) (name : String) : Except JSError JSValue :=
  match base with
  | .undefined => .error (.typeError ("Cannot read property " ++ name ++ " of undefined"))
  | .null => .error (.typeError ("Cannot read property " ++ name ++ " of null"))
  | .obj props => .ok ((getProp props name).getD .undefined)
  | _ => .ok .undefined

/-- The operator `a || b`. -/
def jsOr (a b : JSValue) : JSValue := if a.truthy then a else b

/-- Truthiness of `path.match(/\/$|\\$/)`: the last character is a slash or a backslash. -/
def endsWithSeparator (path : String) : Bool :=
  match path.toList.getLast? with
  | some c => c == Char.ofNat 47 || c == Char.ofNat 92
  | none => false

/-- Lines 17 and 26-28 after `this.path` has been chosen: only a string has a `match`
method; a path without a trailing separator gets a slash appended. -/
def normalizePath : JSValue → Except JSError String
  | .str path => .ok (if endsWithSeparator path then path else path ++ "/")
  | _ => .error (.typeError "this.path.match is not a function")

/-- The field `this.rotation` (lines 30-34). -/
structure Rotation where
  enabled : JSValue
  period : JSValue
  count : JSValue

/-- Options of the single stream handed to `bunyan.createLogger`; an absent field is `none`.
The bunyan logger itself is an external collaborator, the model keeps what it is given. -/
structure StreamOptions where
  type : Option String
  path : Option String
  level : JSValue
  period : Option JSValue
  count : Option JSValue

/-- A value of the registry `this.streams`: `name`, the options of its `log`, and what
`logger.match` reads on line 213, which is `undefined` for an object literal without such a
property. -/
structure StreamEntry where
  name : String
  log : StreamOptions
  matchField : JSValue

/-- Fields of a `Logger` instance. The field `domain` is never assigned, so it reads as
`undefined` wherever it is used. -/
structure Logger where
  env : JSValue
  outputWays : JSValue
  serviceName : JSValue
  level : JSValue
  mode : JSValue
  path : String
  rotation : Rotation
  streams : List (String × StreamEntry)

namespace Logger

/-- The method `setStdoutStream` (lines 104-121). -/
def setStdoutStream (self : Logger) : Logger :=
  let stdout : StreamEntry :=
    ⟨"stdout", ⟨some "raw", none, self.level, none, none⟩, .undefined⟩
  { self with streams := setEntry self.streams "stdout" stdout }

/-- The method `setFileStream` (lines 123-180). The template literals convert `this.domain`
(always `undefined`) and `this.env` to strings. -/
def setFileStream (self : Logger) : Except JSError Logger := do
  let env ← self.env.toStringJS
  let errorPath := self.path ++ "undefined" ++ "_" ++ env ++ ".error.log"
  let allPath := self.path ++ "undefined" ++ "_" ++ env ++ ".log"
  let fileErrors : StreamEntry :=
    ⟨"file", ⟨none, some errorPath, .str "error", none, none⟩, .undefined⟩
  let fileAll : StreamEntry :=
    ⟨"file", ⟨none, some allPath, self.level, none, none⟩, .undefined⟩
  let plain := setEntry (setEntry self.streams "file-errors" fileErrors) "file-all" fileAll
  if self.rotation.enabled.truthy then
    let rotationErrors : StreamEntry :=
      ⟨"rotation-errors", ⟨some "rotating-file", some errorPath, self.level,
        some self.rotation.period, some self.rotation.count⟩, .undefined⟩
    let rotationAll : StreamEntry :=
      ⟨"rotation-all", ⟨some "rotating-file", some (self.path ++ "undefined" ++ "_.log"),
        self.level, some self.rotation.period, some self.rotation.count⟩, .undefined⟩
    let rotating :=
      setEntry (setEntry plain "rotation-errors" rotationErrors) "rotation-all" rotationAll
    pure { self with streams := rotating }
  else
    pure { self with streams := plain }

/-- Result of `c.toUpperCase()` for the first character of an output way. Besides the ASCII
letters only the long s has an ASCII capital; the capitals of other letters cannot spell a
method name, so they are left as they are. -/
def upperFirst (c : Char) : Char :=
  if c = Char.ofNat 383 then Char.ofNat 83 else c.toUpper

/-- The method name built on line 37 from an output way. Only a string has a `slice` method
whose result has `toUpperCase`. -/
def setterName : JSValue → Except JSError String
  | .str way =>
    .ok ("set" ++ String.mk ((way.toList.take 1).map upperFirst) ++ String.mk (way.toList.drop 1)
      ++ "Stream")
  | _ => .error (.typeError "outputWay.slice(...).toUpperCase is not a function")

/-- Line 37: the call of the method with the derived name; a name that is no method of the
class raises a `TypeError`. -/
def callSetter (self : Logger) (outputWay : JSValue) : Except JSError Logger := do
  let name ← setterName outputWay
  if name = "setStdoutStream" then pure self.setStdoutStream
  else if name = "setFileStream" then self.setFileStream
  else .error (.typeError ("self." ++ name ++ " is not a function"))

/-- Lines 10-34 of the constructor: the fields, with an empty registry. An `undefined`
argument is replaced by the default `{}`. -/
def initFields (options : JSValue) : Except JSError Logger := do
  let options := match options with
    | .undefined => JSValue.obj []
    | given => given
  let env := jsOr (← getMember options "env") (.str "development")
  let outputWays := jsOr (← getMember options "outputWays") (.arr [.str "File", .str "Stdout"])
  let serviceName := jsOr (← getMember options "serviceName") (.str "localhost")
  let level := jsOr (← getMember options "LEVEL") (.str "info")
  let mode := jsOr (← getMember options "MODE") (.str "short")
  let path ← normalizePath (jsOr (← getMember options "log_path") (.str "/home/ubuntu"))
  let rotationOption ← getMember options "rotation"
  let enabled := jsOr (← getMember rotationOption "enabled") (.bool false)
  let period := jsOr (← getMember rotationOption "period") (.str "6h")
  let count ← getMember rotationOption "count"
  pure ⟨env, outputWays, serviceName, level, mode, path, ⟨enabled, period, count⟩, []⟩

/-- The constructor (lines 10-39): the fields, then one setter call per output way. -/
def construct (options : JSValue) : Except JSError Logger := do
  let self ← initFields options
  (forEachEntries self.outputWays).foldlM (fun lg entry => lg.callSetter entry.1) self

/-- Threshold (`level`) of the stream registered under `key`, when there is one. -/
def threshold (self : Logger) (key : String) : Option JSValue :=
  (self.streams.find? (fun p => p.1 == key)).map (fun p => p.2.log.level)

end Logger

/-! ## Fan-out of `log` (lines 212-220) -/

/-- A stream as `log` sees it: its `name`, its `match` field when that is truthy (given by
the test of the regular expression built from it), and the effect of
`logger.log[type](record)`, which either returns or throws. -/
structure LogStream where
  name : String
  matchField : Option (String → Bool)
  call : String → JSValue → Except JSError Unit

/-- One invocation `logger.log[type](record)` of the stream registered under `key`. -/
structure Call where
  key : String
  type : String
  record : JSValue

/-- What a run of `log` does: the sink invocations made, in order, and how the run ended. -/
structure Outcome where
  calls : List Call
  result : Except JSError Unit

/-- The method `.replace(/"/g, '')`: every double quote removed. -/
def stripQuotes (text : String) : String :=
  String.mk (text.toList.filter (fun c => c != Char.ofNat 34))

/-- The loop of lines 212-220 over the registry in iteration order. `stringify` stands for
`jsonStringifySafe`, which returns a string or `undefined` (`none`); calling `replace` on
`undefined` raises a `TypeError`. An exception ends the loop. -/
def fanOut (stringify : JSValue → Option String) (type : String) (record : JSValue) :
    List (String × LogStream) → Outcome
  | [] => ⟨[], .ok ()⟩
  | (key, logger) :: rest =>
    let invoke : Outcome :=
      match logger.call type record with
      | .ok _ =>
        let later := fanOut stringify type record rest
        ⟨⟨key, type, record⟩ :: later.calls, later.result⟩
      | .error e => ⟨[⟨key, type, record⟩], .error e⟩
    match logger.matchField with
    | some test =>
      match stringify record with
      | some rendered =>
        if test (stripQuotes rendered) then invoke else fanOut stringify type record rest
      | none => ⟨[], .error (.typeError "Cannot read property replace of undefined")⟩
    | none => invoke

/-- The method `log(type, args)` (lines 182-221). -/
def log (stringify : JSValue → Option String) (streams : List (String × LogStream))
    (type : String) (args : List JSValue) : Outcome :=
  match buildRecord args with
  | .ok record => fanOut stringify type record streams
  | .error e => ⟨[], .error e⟩

/-! ## Notions used by the statements -/

/-- A stream is selected for a record when it has no `match` field, or its test accepts the
rendered record (line 214). -/
def selected (stringify : JSValue → Option String) (record : JSValue) (logger : LogStream) :
    Prop :=
  logger.matchField = none ∨
    ∃ test rendered, logger.matchField = some test ∧ stringify record = some rendered ∧
      test (stripQuotes rendered) = true

/-- Invocations received by the stream registered under `key`. -/
def callsTo (key : String) (run : Outcome) : List Call :=
  run.calls.filter (fun c => c.key == key)

/-- Primitive values: the arguments that take the last branch of the fold (lines 202-209). -/
def isScalar : JSValue → Bool
  | .undefined => true
  | .null => true
  | .bool _ => true
  | .num _ => true
  | .str _ => true
  | _ => false

/-- Text named by the specification for scalar arguments: each string form followed by one
space, in order. -/
def scalarText : List JSValue → String
  | [] => ""
  | value :: rest => value.primToString ++ " " ++ scalarText rest

/-- Right-biased merge named by the specification, read at one key: the value of the key in
the last object that carries it. -/
def rightBiasedValue : List Props → String → Option JSValue
  | [], _ => none
  | props :: rest, key =>
    match rightBiasedValue rest key with
    | some value => some value
    | none => getProp props key

/-- Arguments that are an `Error` or a plain object. -/
def isErrorOrPlain : JSValue → Bool
  | .error _ => true
  | .obj _ => true
  | _ => false

/-- Object left by lines 198-201 when the keys `keys` of `source` are copied, in order, into
an object holding `target`. -/
def mergeKeys (source : Props) (keys : List String) (target : Props) : Props :=
  keys.foldl (fun acc key => setProp acc key ((getProp source key).getD .undefined)) target

/-- Object left after the plain objects `objs` have been merged, in order, into `target`. -/
def mergeAll (target : Props) (objs : List Props) : Props :=
  objs.foldl (fun acc props => mergeKeys props (props.map Prod.fst) acc) target

/-- A sink that accepts every call. -/
def acceptingStream (name : String) : LogStream :=
  ⟨name, none, fun _ _ => .ok ()⟩

/-- A sink that throws on every call. -/
def throwingStream (name : String) : LogStream :=
  ⟨name, none, fun _ _ => .error (.thrown "disk full")⟩

/-- A stream with a `match` field whose test looks for the text `boom`. -/
def boomStream (name : String) : LogStream :=
  ⟨name, some (fun text => containsRun "boom".toList text.toList), fun _ _ => .ok ()⟩

/-- Rendering of the sample records by `jsonStringifySafe`: a string free of quotes,
backslashes and control characters is put between double quotes. The samples render no
other value. -/
def sampleStringify : JSValue → Option String
  | .str s => some (String.mk (Char.ofNat 34 :: s.toList ++ [Char.ofNat 34]))
  | _ => none

/-- The logger built from `{LEVEL: 'debug', rotation: {}}`. -/
def debugLogger : Logger :=
  ⟨.str "development", .arr [.str "File", .str "Stdout"], .str "localhost", .str "debug",
    .str "short", "/home/ubuntu/", ⟨.bool false, .str "6h", .undefined⟩,
    [("file-errors",
        ⟨"file", ⟨none, some "/home/ubuntu/undefined_development.error.log", .str "error",
          none, none⟩, .undefined⟩),
     ("file-all",
        ⟨"file", ⟨none, some "/home/ubuntu/undefined_development.log", .str "debug",
          none, none⟩, .undefined⟩),
     ("stdout", ⟨"stdout", ⟨some "raw", none, .str "debug", none, none⟩, .undefined⟩)]⟩

/-! ## The registry as `log` uses it -/

/-- The external collaborators of the class: `stringify` stands for `jsonStringifySafe`,
`regexTest pattern` for the test of `new RegExp(pattern)`, and `createLogger options type`
for the method `type` of the bunyan logger created with the stream `options`. -/
structure External where
  stringify : JSValue → Option String
  regexTest : JSValue → String → Bool
  createLogger : StreamOptions → String → JSValue → Except JSError Unit

/-- A registry entry as the loop of lines 212-220 reads it: the `match` field counts when it
is truthy. -/
def StreamEntry.toLogStream (ext : External) (entry : StreamEntry) : LogStream :=
  ⟨entry.name,
    if entry.matchField.truthy then some (ext.regexTest entry.matchField) else none,
    ext.createLogger entry.log⟩

/-- The registry `this.streams` in iteration order. -/
def Logger.registry (ext : External) (self : Logger) : List (String × LogStream) :=
  self.streams.map (fun p => (p.1, p.2.toLogStream ext))

/-- The method `log(type, args)` on a constructed logger. -/
def Logger.log (ext : External) (self : Logger) (type : String) (args : List JSValue) :
    Outcome :=
  NodeLog.log ext.stringify (self.registry ext) type args

/-- The method `info()` (lines 223-225). -/
def Logger.info (ext : External) (self : Logger) (args : List JSValue) : Outcome :=
  self.log ext "info" args

/-- The method `warn()` (lines 227-229). -/
def Logger.warn (ext : External) (self : Logger) (args : List JSValue) : Outcome :=
  self.log ext "warn" args

/-- The method `error()` (lines 231-233). -/
def Logger.error (ext : External) (self : Logger) (args : List JSValue) : Outcome :=
  self.log ext "error" args

/-- Entry registered under `key`, when there is one. -/
def Logger.entry (self : Logger) (key : String) : Option StreamEntry :=
  (self.streams.find? (fun p => p.1 == key)).map Prod.snd

/-- File path of the stream registered under `key`, when there is one with a path. -/
def Logger.pathOf (self : Logger) (key : String) : Option String :=
  (self.entry key).bind (fun entry => entry.log.path)

/-- String form of `this.env` inside the template literals (empty when the conversion
throws, in which case no file stream is built). -/
def Logger.envText (self : Logger) : String :=
  match self.env.toStringJS with
  | .ok text => text
  | .error _ => ""

/-- The logger with another `serviceName` field. -/
def Logger.withServiceName (self : Logger) (name : JSValue) : Logger :=
  { self with serviceName := name }

/-- The entry written under `stdout` (lines 109-120). -/
def Logger.stdoutEntry (self : Logger) : StreamEntry :=
  ⟨"stdout", ⟨some "raw", none, self.level, none, none⟩, .undefined⟩

/-- The entry written under `file-errors` (lines 125-135). -/
def Logger.fileErrorsEntry (self : Logger) : StreamEntry :=
  ⟨"file", ⟨none, some (self.path ++ "undefined" ++ "_" ++ self.envText ++ ".error.log"),
    .str "error", none, none⟩, .undefined⟩

/-- The entry written under `file-all` (lines 137-147). -/
def Logger.fileAllEntry (self : Logger) : StreamEntry :=
  ⟨"file", ⟨none, some (self.path ++ "undefined" ++ "_" ++ self.envText ++ ".log"),
    self.level, none, none⟩, .undefined⟩

/-- The entry written under `rotation-errors` (lines 150-163). -/
def Logger.rotationErrorsEntry (self : Logger) : StreamEntry :=
  ⟨"rotation-errors", ⟨some "rotating-file",
    some (self.path ++ "undefined" ++ "_" ++ self.envText ++ ".error.log"), self.level,
    some self.rotation.period, some self.rotation.count⟩, .undefined⟩

/-- The entry written under `rotation-all` (lines 165-178). -/
def Logger.rotationAllEntry (self : Logger) : StreamEntry :=
  ⟨"rotation-all", ⟨some "rotating-file", some (self.path ++ "undefined" ++ "_.log"),
    self.level, some self.rotation.period, some self.rotation.count⟩, .undefined⟩

/-- The registry left by `setFileStream`, written with the named entries. -/
def Logger.fileStreams (self : Logger) : List (String × StreamEntry) :=
  let plain := setEntry (setEntry self.streams "file-errors" self.fileErrorsEntry)
    "file-all" self.fileAllEntry
  if self.rotation.enabled.truthy then
    setEntry (setEntry plain "rotation-errors" self.rotationErrorsEntry)
      "rotation-all" self.rotationAllEntry
  else plain

/-- The entry that the setters write under each key of the registry, from the fields of the
logger. -/
def Logger.registryEntry (self : Logger) (key : String) : Option StreamEntry :=
  if key = "stdout" then some self.stdoutEntry
  else if key = "file-errors" then some self.fileErrorsEntry
  else if key = "file-all" then some self.fileAllEntry
  else if key = "rotation-errors" then some self.rotationErrorsEntry
  else if key = "rotation-all" then some self.rotationAllEntry
  else none

/-! ## Notions used by the statements on redaction -/

/-- The configuration `{outputWays: ['File'], rotation: {enabled: false}}`. -/
def fileOnlyOptions : Props :=
  [("outputWays", .arr [.str "File"]), ("rotation", .obj [("enabled", .bool false)])]

/-- The logger built from `fileOnlyOptions`. -/
def fileOnlyLogger : Logger :=
  ⟨.str "development", .arr [.str "File"], .str "localhost", .str "info", .str "short",
    "/home/ubuntu/", ⟨.bool false, .str "6h", .undefined⟩,
    [("file-errors",
        ⟨"file", ⟨none, some "/home/ubuntu/undefined_development.error.log", .str "error",
          none, none⟩, .undefined⟩),
     ("file-all",
        ⟨"file", ⟨none, some "/home/ubuntu/undefined_development.log", .str "info",
          none, none⟩, .undefined⟩)]⟩

/-- The configuration `{outputWays: ['File'], rotation: {enabled: true, period: '1d',
count: 3}}`. -/
def rotatingOptions : Props :=
  [("outputWays", .arr [.str "File"]),
   ("rotation", .obj [("enabled", .bool true), ("period", .str "1d"), ("count", .num 3)])]

/-- The configuration `{log_path: '/var/log', outputWays: ['Stdout'], rotation: {}}`. -/
def varLogOptions : Props :=
  [("log_path", .str "/var/log"), ("outputWays", .arr [.str "Stdout"]), ("rotation", .obj [])]

/-- The logger built from `varLogOptions`. -/
def varLogLogger : Logger :=
  ⟨.str "development", .arr [.str "Stdout"], .str "localhost", .str "info", .str "short",
    "/var/log/", ⟨.bool false, .str "6h", .undefined⟩,
    [("stdout", ⟨"stdout", ⟨some "raw", none, .str "info", none, none⟩, .undefined⟩)]⟩

/-- The collaborators of the samples: the error file cannot be written (its logger throws),
every other logger accepts the call. -/
def sampleExternal : External :=
  ⟨sampleStringify, fun _ _ => false,
    fun options _ _ =>
      if options.path = some "/home/ubuntu/undefined_development.error.log" then
        .error (.thrown "disk full")
      else .ok ()⟩

/-- Collaborators whose loggers accept every call. -/
def quietExternal : External :=
  ⟨sampleStringify, fun _ _ => false, fun _ _ _ => .ok ()⟩

/-! ## Lemmas on tables -/

theorem find_setEntry {α : Type} (table : List (String × α)) (key other : String) (value : α) :
    (setEntry table key value).find? (fun p => p.1 == other) =
      if key = other then some (key, value) else table.find? (fun p => p.1 == other) := by
  induction table with
  | nil =>
    by_cases h : key = other
    · simp [setEntry, h]
    · simp [setEntry, h]
  | cons head tail ih =>
    obtain ⟨k, v⟩ := head
    by_cases hk : k = key
    · by_cases h : key = other
      · simp [setEntry, hk, h]
      · simp [setEntry, hk, h, List.find?_cons]
    · by_cases hko : k = other
      · subst hko
        have hne : ¬ key = k := fun h => hk h.symm
        simp [setEntry, hk, hne]
      · simp [setEntry, hk, hko, List.find?_cons, ih]

theorem getProp_setProp (props : Props) (key other : String) (value : JSValue) :
    getProp (setProp props key value) other =
      if key = other then some value else getProp props other := by
  unfold getProp setProp
  rw [find_setEntry]
  by_cases h : key = other <;> simp [h]

/-! ## Lemmas on the fan-out -/

theorem fanOut_cons_skip (stringify : JSValue → Option String) (type : String) (record : JSValue)
    (key : String) (logger : LogStream) (rest : List (String × LogStream))
    (test : String → Bool) (rendered : String)
    (hm : logger.matchField = some test) (hs : stringify record = some rendered)
    (ht : test (stripQuotes rendered) = false) :
    fanOut stringify type record ((key, logger) :: rest) = fanOut stringify type record rest := by
  simp [fanOut, hm, hs, ht]

theorem fanOut_cons_ok (stringify : JSValue → Option String) (type : String) (record : JSValue)
    (key : String) (logger : LogStream) (rest : List (String × LogStream))
    (hsel : selected stringify record logger) (hc : logger.call type record = .ok ()) :
    fanOut stringify type record ((key, logger) :: rest) =
      ⟨⟨key, type, record⟩ :: (fanOut stringify type record rest).calls,
        (fanOut stringify type record rest).result⟩ := by
  rcases hsel with hm | ⟨test, rendered, hm, hs, ht⟩
  · simp [fanOut, hm, hc]
  · simp [fanOut, hm, hs, ht, hc]

theorem fanOut_cons_throw (stringify : JSValue → Option String) (type : String) (record : JSValue)
    (key : String) (logger : LogStream) (rest : List (String × LogStream)) (e : JSError)
    (hsel : selected stringify record logger) (hc : logger.call type record = .error e) :
    fanOut stringify type record ((key, logger) :: rest) = ⟨[⟨key, type, record⟩], .error e⟩ := by
  rcases hsel with hm | ⟨test, rendered, hm, hs, ht⟩
  · simp [fanOut, hm, hc]
  · simp [fanOut, hm, hs, ht, hc]

theorem fanOut_append_ok (stringify : JSValue → Option String) (type : String) (record : JSValue)
    (before rest : List (String × LogStream))
    (hb : (fanOut stringify type record before).result = .ok ()) :
    fanOut stringify type record (before ++ rest) =
      ⟨(fanOut stringify type record before).calls ++ (fanOut stringify type record rest).calls,
        (fanOut stringify type record rest).result⟩ := by
  induction before with
  | nil => simp [fanOut]
  | cons head tail ih =>
    obtain ⟨key, logger⟩ := head
    simp only [List.cons_append, fanOut] at hb ⊢
    cases hm : logger.matchField with
    | none =>
      simp only [hm] at hb ⊢
      cases hc : logger.call type record with
      | ok u =>
        simp only [hc] at hb ⊢
        simp [ih hb]
      | error e => simp [hc] at hb
    | some test =>
      simp only [hm] at hb ⊢
      cases hs : stringify record with
      | none => simp [hs] at hb
      | some rendered =>
        simp only [hs] at hb ⊢
        cases ht : test (stripQuotes rendered) with
        | false =>
          simp only [ht] at hb ⊢
          simpa using ih hb
        | true =>
          simp only [ht] at hb ⊢
          cases hc : logger.call type record with
          | ok u =>
            simp only [hc] at hb ⊢
            simp [ih hb]
          | error e => simp [hc] at hb

/-- Every invocation made by the fan-out is made on a stream of the registry. -/
theorem fanOut_calls_key (stringify : JSValue → Option String) (type : String) (record : JSValue)
    (streams : List (String × LogStream)) (c : Call)
    (hc : c ∈ (fanOut stringify type record streams).calls) :
    c.key ∈ streams.map Prod.fst ∧ c.type = type ∧ c.record = record := by
  induction streams with
  | nil => simp [fanOut] at hc
  | cons head tail ih =>
    obtain ⟨key, logger⟩ := head
    simp only [fanOut] at hc
    cases hm : logger.matchField with
    | none =>
      simp only [hm] at hc
      cases hcall : logger.call type record with
      | ok u =>
        simp only [hcall, List.mem_cons] at hc
        rcases hc with rfl | hc
        · simp
        · have := ih hc
          simp [this]
      | error e =>
        simp only [hcall, List.mem_singleton] at hc
        subst hc
        simp
    | some test =>
      simp only [hm] at hc
      cases hs : stringify record with
      | none => simp [hs] at hc
      | some rendered =>
        simp only [hs] at hc
        cases ht : test (stripQuotes rendered) with
        | false =>
          simp only [ht, Bool.false_eq_true, if_false] at hc
          have := ih hc
          simp [this]
        | true =>
          simp only [ht, if_true] at hc
          cases hcall : logger.call type record with
          | ok u =>
            simp only [hcall, List.mem_cons] at hc
            rcases hc with rfl | hc
            · simp
            · have := ih hc
              simp [this]
          | error e =>
            simp only [hcall, List.mem_singleton] at hc
            subst hc
            simp

/-- The invocations on `before ++ rest` start with those on `before`; the rest is made up of
invocations on `rest`. -/
theorem fanOut_append_calls (stringify : JSValue → Option String) (type : String)
    (record : JSValue) (before rest : List (String × LogStream)) :
    ∃ more, (fanOut stringify type record (before ++ rest)).calls =
        (fanOut stringify type record before).calls ++ more ∧
      (more = [] ∨ more = (fanOut stringify type record rest).calls) := by
  cases hb : (fanOut stringify type record before).result with
  | ok u =>
    refine ⟨(fanOut stringify type record rest).calls, ?_, Or.inr rfl⟩
    rw [fanOut_append_ok stringify type record before rest hb]
  | error e =>
    refine ⟨[], ?_, Or.inl rfl⟩
    induction before with
    | nil => simp [fanOut] at hb
    | cons head tail ih =>
      obtain ⟨key, logger⟩ := head
      simp only [List.cons_append, fanOut, List.append_nil] at hb ⊢
      cases hm : logger.matchField with
      | none =>
        simp only [hm] at hb ⊢
        cases hc : logger.call type record with
        | ok u =>
          simp only [hc] at hb ⊢
          simpa using ih hb
        | error e2 => simp
      | some test =>
        simp only [hm] at hb ⊢
        cases hs : stringify record with
        | none => simp
        | some rendered =>
          simp only [hs] at hb ⊢
          cases ht : test (stripQuotes rendered) with
          | false =>
            simp only [ht] at hb ⊢
            simpa using ih hb
          | true =>
            simp only [ht] at hb ⊢
            cases hc : logger.call type record with
            | ok u =>
              simp only [hc] at hb ⊢
              simpa using ih hb
            | error e2 => simp

/-! ## Lemmas on the argument fold -/

theorem hasProp_iff_getProp (props : Props) (key : String) :
    hasProp props key = true ↔ ∃ value, getProp props key = some value := by
  induction props with
  | nil => simp [hasProp, getProp]
  | cons head tail ih =>
    obtain ⟨k, v⟩ := head
    by_cases hk : k = key
    · simp [hasProp, getProp, hk]
    · simp only [hasProp, getProp] at ih
      simp [hasProp, getProp, hk, List.find?_cons, ih]

theorem getProp_none_of_hasProp_false (props : Props) (key : String)
    (h : hasProp props key = false) : getProp props key = none := by
  cases hg : getProp props key with
  | none => rfl
  | some value =>
    have := (hasProp_iff_getProp props key).2 ⟨value, hg⟩
    simp [h] at this

theorem mem_keys_iff_getProp (props : Props) (key : String) :
    key ∈ props.map Prod.fst ↔ ∃ value, getProp props key = some value := by
  rw [← hasProp_iff_getProp]
  simp [hasProp]

theorem getProp_mergeKeys (source : Props) (keys : List String) (target : Props) (key : String) :
    getProp (mergeKeys source keys target) key =
      if key ∈ keys then some ((getProp source key).getD .undefined) else getProp target key := by
  induction keys generalizing target with
  | nil => simp [mergeKeys]
  | cons k ks ih =>
    have hstep : mergeKeys source (k :: ks) target =
        mergeKeys source ks (setProp target k ((getProp source k).getD .undefined)) := rfl
    rw [hstep, ih, getProp_setProp]
    by_cases hmem : key ∈ ks
    · simp [hmem]
    · by_cases hk : k = key
      · simp [hk]
      · have hk2 : ¬ key = k := fun h => hk h.symm
        simp [hmem, hk, hk2]

theorem getProp_mergeKeys_all (source target : Props) (key : String) :
    getProp (mergeKeys source (source.map Prod.fst) target) key =
      match getProp source key with
      | some value => some value
      | none => getProp target key := by
  rw [getProp_mergeKeys]
  cases hg : getProp source key with
  | none =>
    have hmem : ¬ key ∈ source.map Prod.fst := by
      rw [mem_keys_iff_getProp]
      simp [hg]
    simp [hmem]
  | some value =>
    have hmem : key ∈ source.map Prod.fst := (mem_keys_iff_getProp source key).2 ⟨value, hg⟩
    simp [hmem]

theorem getProp_mergeAll (target : Props) (objs : List Props) (key : String) :
    getProp (mergeAll target objs) key =
      match rightBiasedValue objs key with
      | some value => some value
      | none => getProp target key := by
  induction objs generalizing target with
  | nil => simp [mergeAll, rightBiasedValue]
  | cons props rest ih =>
    have hstep : mergeAll target (props :: rest) =
        mergeAll (mergeKeys props (props.map Prod.fst) target) rest := rfl
    rw [hstep, ih, getProp_mergeKeys_all]
    simp only [rightBiasedValue]
    cases rightBiasedValue rest key with
    | none => cases getProp props key <;> rfl
    | some value => rfl

theorem assign_keys (source : JSValue) (sourceProps : Props) (keys : List String)
    (target : Props) (hread : ∀ key, readKey source key = (getProp sourceProps key).getD .undefined) :
    keys.foldlM (fun a key => Acc.assign a key (readKey source key)) (Acc.record target) =
      .ok (Acc.record (mergeKeys sourceProps keys target)) := by
  induction keys generalizing target with
  | nil => rfl
  | cons k ks ih =>
    rw [List.foldlM_cons]
    have hstep : Acc.assign (Acc.record target) k (readKey source k) =
        .ok (Acc.record (setProp target k ((getProp sourceProps k).getD .undefined))) := by
      simp [Acc.assign, hread]
    rw [hstep]
    exact ih _

theorem logStep_obj_record (target props : Props) :
    logStep (Acc.record target) (.obj props) =
      .ok (Acc.record (mergeKeys props (props.map Prod.fst) target)) := by
  have h := assign_keys (.obj props) props (props.map Prod.fst) target (fun key => rfl)
  simpa [logStep, Acc.falsy, Acc.toValue, JSValue.truthy, objectKeys] using h

theorem logStep_obj_unset (props : Props) :
    logStep Acc.unset (.obj props) =
      .ok (Acc.record (mergeKeys props (props.map Prod.fst) [])) := by
  have h := assign_keys (.obj props) props (props.map Prod.fst) [] (fun key => rfl)
  simpa [logStep, Acc.falsy, Acc.toValue, JSValue.truthy, objectKeys] using h

theorem foldlM_objs_record (target : Props) (objs : List Props) :
    (objs.map JSValue.obj).foldlM logStep (Acc.record target) =
      .ok (Acc.record (mergeAll target objs)) := by
  induction objs generalizing target with
  | nil => rfl
  | cons props rest ih =>
    rw [List.map_cons, List.foldlM_cons, logStep_obj_record]
    exact ih _

theorem logStep_error_record (target : Props) (message : String) :
    logStep (Acc.record target) (.error message) =
      .ok (Acc.record (setProp target "err" (.error message))) := by
  simp [logStep, Acc.falsy, Acc.toValue, JSValue.truthy, Acc.assign]

theorem logStep_error_unset (message : String) :
    logStep Acc.unset (.error message) =
      .ok (Acc.record (setProp [] "err" (.error message))) := by
  simp [logStep, Acc.falsy, Acc.toValue, JSValue.truthy, Acc.assign]

/-- Errors and plain objects keep an object accumulator an object. -/
theorem foldlM_errorOrPlain_record (args : List JSValue)
    (h : ∀ v ∈ args, isErrorOrPlain v = true) (target : Props) :
    ∃ result, args.foldlM logStep (Acc.record target) = .ok (Acc.record result) := by
  induction args generalizing target with
  | nil => exact ⟨target, rfl⟩
  | cons v rest ih =>
    have hrest : ∀ w ∈ rest, isErrorOrPlain w = true := fun w hw => h w (List.mem_cons_of_mem _ hw)
    have hv := h v (List.mem_cons_self _ _)
    rw [List.foldlM_cons]
    cases v with
    | error message =>
      rw [logStep_error_record]
      exact ih hrest _
    | obj props =>
      rw [logStep_obj_record]
      exact ih hrest _
    | undefined => simp [isErrorOrPlain] at hv
    | null => simp [isErrorOrPlain] at hv
    | bool b => simp [isErrorOrPlain] at hv
    | num n => simp [isErrorOrPlain] at hv
    | str text => simp [isErrorOrPlain] at hv
    | arr items => simp [isErrorOrPlain] at hv

/-- From the initial state, errors and plain objects leave `undefined` (no argument) or an
object. -/
theorem foldlM_errorOrPlain_unset (args : List JSValue)
    (h : ∀ v ∈ args, isErrorOrPlain v = true) :
    args.foldlM logStep Acc.unset = .ok Acc.unset ∨
      ∃ result, args.foldlM logStep Acc.unset = .ok (Acc.record result) := by
  cases args with
  | nil => exact Or.inl rfl
  | cons v rest =>
    have hrest : ∀ w ∈ rest, isErrorOrPlain w = true := fun w hw => h w (List.mem_cons_of_mem _ hw)
    have hv := h v (List.mem_cons_self _ _)
    right
    rw [List.foldlM_cons]
    cases v with
    | error message =>
      rw [logStep_error_unset]
      exact foldlM_errorOrPlain_record rest hrest _
    | obj props =>
      rw [logStep_obj_unset]
      exact foldlM_errorOrPlain_record rest hrest _
    | undefined => simp [isErrorOrPlain] at hv
    | null => simp [isErrorOrPlain] at hv
    | bool b => simp [isErrorOrPlain] at hv
    | num n => simp [isErrorOrPlain] at hv
    | str text => simp [isErrorOrPlain] at hv
    | arr items => simp [isErrorOrPlain] at hv

theorem logStep_scalar (acc : Acc) (value : JSValue) (h : isScalar value = true) :
    logStep acc value = acc.appendScalar value := by
  cases value <;> first | rfl | simp [isScalar] at h

theorem foldlM_scalars_text (args : List JSValue) (h : ∀ v ∈ args, isScalar v = true)
    (text : String) :
    args.foldlM logStep (Acc.text text) = .ok (Acc.text (text ++ scalarText args)) := by
  induction args generalizing text with
  | nil => simp [scalarText, pure, Except.pure]
  | cons v rest ih =>
    have hrest : ∀ w ∈ rest, isScalar w = true := fun w hw => h w (List.mem_cons_of_mem _ hw)
    rw [List.foldlM_cons, logStep_scalar _ _ (h v (List.mem_cons_self _ _))]
    have hstep : (Acc.text text).appendScalar v =
        .ok (Acc.text (text ++ v.primToString ++ " ")) := by
      by_cases ht : text = ""
      · simp [Acc.appendScalar, ht]
      · simp [Acc.appendScalar, ht]
    rw [hstep]
    have := ih hrest (text ++ v.primToString ++ " ")
    simpa [scalarText, String.append_assoc] using this

theorem callsTo_fanOut_nil (stringify : JSValue → Option String) (type : String)
    (record : JSValue) (streams : List (String × LogStream)) (key : String)
    (hkey : key ∉ streams.map Prod.fst) :
    (fanOut stringify type record streams).calls.filter (fun c => c.key == key) = [] := by
  rw [List.filter_eq_nil_iff]
  intro c hc
  have hk := (fanOut_calls_key stringify type record streams c hc).1
  have hne : ¬ c.key = key := fun h => hkey (h ▸ hk)
  simp [hne]

/-! ## Redaction -/

/-- C1 (code defect): the claim says that no sensitive key survives at any depth, whatever
the value stored under it. On `{user: {password: 'hunter2'}, cookie: {sid: 'abc'}, pin: '1234'}`
the method returns `{user: {password: 'hunter2'}, cookie: {sid: 'abc'}}`: the nested key
`password` and the object-valued key `cookie` survive, only the scalar `pin` is removed. -/
theorem removeSensitiveData_keeps_object_valued_entries :
    removeSensitiveData
        (.obj [("user", .obj [("password", .str "hunter2")]),
               ("cookie", .obj [("sid", .str "abc")]),
               ("pin", .str "1234")]) =
      .obj [("user", .obj [("password", .str "hunter2")]),
            ("cookie", .obj [("sid", .str "abc")])] := by
  rfl

/-! ## Fan-out and exceptions -/

/-- C2 (counterexample): with two streams of which the first throws, `log` ends with that
exception and the second stream receives no call. -/
theorem log_throwing_sink_starves_later_stream :
    (log sampleStringify [("first", throwingStream "first"), ("second", acceptingStream "second")]
        "info" [.str "x"]).result = .error (.thrown "disk full") ∧
    callsTo "second"
      (log sampleStringify [("first", throwingStream "first"), ("second", acceptingStream "second")]
        "info" [.str "x"]) = [] := by
  constructor <;> rfl

/-- C2 (amended): when the loop has served the streams before a selected stream and the sink
of that stream throws, `log` ends with the same exception; the invocations made are those
on the earlier streams followed by the one that threw, so no later stream receives the
record. -/
theorem log_propagates_sink_exception (stringify : JSValue → Option String)
    (before after : List (String × LogStream)) (key : String) (logger : LogStream)
    (type : String) (args : List JSValue) (record : JSValue) (e : JSError)
    (hrec : buildRecord args = .ok record)
    (hbefore : (fanOut stringify type record before).result = .ok ())
    (hsel : selected stringify record logger)
    (hthrow : logger.call type record = .error e) :
    (log stringify (before ++ (key, logger) :: after) type args).result = .error e ∧
    (log stringify (before ++ (key, logger) :: after) type args).calls =
      (fanOut stringify type record before).calls ++ [⟨key, type, record⟩] := by
  simp only [log, hrec]
  rw [fanOut_append_ok stringify type record before _ hbefore,
    fanOut_cons_throw stringify type record key logger after e hsel hthrow]
  exact ⟨rfl, rfl⟩

/-- C2 (amended), an instance: an accepting stream, a throwing stream, an accepting stream. -/
theorem log_propagates_sink_exception_witness :
    (log sampleStringify
        ([("first", acceptingStream "first")] ++
          ("second", throwingStream "second") :: [("third", acceptingStream "third")])
        "warn" [.str "x"]).result = .error (.thrown "disk full") ∧
    (log sampleStringify
        ([("first", acceptingStream "first")] ++
          ("second", throwingStream "second") :: [("third", acceptingStream "third")])
        "warn" [.str "x"]).calls =
      (fanOut sampleStringify "warn" (.str "x ") [("first", acceptingStream "first")]).calls ++
        [⟨"second", "warn", .str "x "⟩] :=
  log_propagates_sink_exception sampleStringify [("first", acceptingStream "first")]
    [("third", acceptingStream "third")] "second" (throwingStream "second") "warn" [.str "x"]
    (.str "x ") (.thrown "disk full") rfl rfl (Or.inl rfl) rfl

/-! ## Argument fold -/

/-- C3 (code defect): the claim says that mixed object and scalar arguments give a record
with both the merged keys and the text, without failing. A scalar followed by an object
with a key throws; an object followed by a scalar gives the string
`[object Object]user saved ` and loses the merged keys. -/
theorem buildRecord_mixed_arguments :
    buildRecord [.str "user saved", .obj [("id", .num 1)]] =
      .error (.typeError "Cannot create property on string") ∧
    buildRecord [.obj [("id", .num 1)], .str "user saved"] =
      .ok (.str "[object Object]user saved ") := by
  constructor <;> rfl

/-- C5 (counterexample): an error followed by a plain object with an own key `err` gives a
record whose `err` is the value from the object, not the error. -/
theorem buildRecord_err_overwritten :
    buildRecord [.error "boom", .obj [("err", .str "x")]] = .ok (.obj [("err", .str "x")]) := by
  rfl

/-- C5 (amended): in a list of errors and plain objects, when no plain object after the last
error has an own key `err`, the fold succeeds with an object whose `err` is that error. -/
theorem buildRecord_last_error (before : List JSValue) (message : String) (after : List Props)
    (hbefore : ∀ v ∈ before, isErrorOrPlain v = true)
    (hafter : ∀ props ∈ after, hasProp props "err" = false) :
    ∃ merged, buildRecord (before ++ .error message :: after.map JSValue.obj) = .ok (.obj merged) ∧
      getProp merged "err" = some (.error message) := by
  have hnone : rightBiasedValue after "err" = none := by
    induction after with
    | nil => rfl
    | cons props rest ih =>
      have hrest : ∀ p ∈ rest, hasProp p "err" = false :=
        fun p hp => hafter p (List.mem_cons_of_mem _ hp)
      simp only [rightBiasedValue, ih hrest]
      exact getProp_none_of_hasProp_false props "err" (hafter props (List.mem_cons_self _ _))
  have hfinish : ∀ target : Props,
      getProp (mergeAll (setProp target "err" (.error message)) after) "err" =
        some (.error message) := by
    intro target
    rw [getProp_mergeAll, hnone]
    simp [getProp_setProp]
  unfold buildRecord foldArgs
  rw [List.foldlM_append]
  rcases foldlM_errorOrPlain_unset before hbefore with h | ⟨target, h⟩
  · rw [h]
    refine ⟨mergeAll (setProp [] "err" (.error message)) after, ?_, hfinish []⟩
    show Except.map Acc.toValue
      (List.foldlM logStep Acc.unset (JSValue.error message :: after.map JSValue.obj)) = _
    rw [List.foldlM_cons, logStep_error_unset]
    show Except.map Acc.toValue
      (List.foldlM logStep (Acc.record _) (after.map JSValue.obj)) = _
    rw [foldlM_objs_record]
    rfl
  · rw [h]
    refine ⟨mergeAll (setProp target "err" (.error message)) after, ?_, hfinish target⟩
    show Except.map Acc.toValue
      (List.foldlM logStep (Acc.record target)
        (JSValue.error message :: after.map JSValue.obj)) = _
    rw [List.foldlM_cons, logStep_error_record]
    show Except.map Acc.toValue
      (List.foldlM logStep (Acc.record _) (after.map JSValue.obj)) = _
    rw [foldlM_objs_record]
    rfl

/-- C5 (amended), an instance: `[{a: 1}, new Error('boom'), {b: 2}]`. -/
theorem buildRecord_last_error_witness :
    ∃ merged, buildRecord ([JSValue.obj [("a", .num 1)]] ++
        .error "boom" :: [[("b", JSValue.num 2)]].map JSValue.obj) = .ok (.obj merged) ∧
      getProp merged "err" = some (.error "boom") :=
  buildRecord_last_error [.obj [("a", .num 1)]] "boom" [[("b", .num 2)]]
    (by intro v hv; simp at hv; subst hv; rfl)
    (by intro props hp; simp at hp; subst hp; rfl)

/-- C6: for a non-empty list of scalars the fold succeeds with the text made of each string
form followed by one space. -/
theorem buildRecord_scalars (args : List JSValue) (hne : args ≠ [])
    (hscalar : ∀ v ∈ args, isScalar v = true) :
    buildRecord args = .ok (.str (scalarText args)) := by
  cases args with
  | nil => exact absurd rfl hne
  | cons v rest =>
    have hrest : ∀ w ∈ rest, isScalar w = true :=
      fun w hw => hscalar w (List.mem_cons_of_mem _ hw)
    unfold buildRecord foldArgs
    rw [List.foldlM_cons, logStep_scalar _ _ (hscalar v (List.mem_cons_self _ _))]
    have hstep : Acc.unset.appendScalar v = .ok (Acc.text (v.primToString ++ " ")) := by
      simp [Acc.appendScalar]
    rw [hstep]
    show Except.map Acc.toValue (List.foldlM logStep (Acc.text _) rest) = _
    rw [foldlM_scalars_text rest hrest]
    simp [Except.map, Acc.toValue, scalarText, String.append_assoc]

/-- C6, an instance: `['hello', 'world']` gives `hello world ` with its trailing space. -/
theorem buildRecord_scalars_witness :
    buildRecord [.str "hello", .str "world"] = .ok (.str "hello world ") :=
  buildRecord_scalars [.str "hello", .str "world"] (by simp)
    (by intro v hv; simp at hv; rcases hv with rfl | rfl <;> rfl)

/-- C7 (counterexample): for the empty argument list the fold leaves `undefined`, which is
not an empty object. -/
theorem buildRecord_nil_not_empty_record :
    buildRecord [] = .ok .undefined ∧ buildRecord [] ≠ .ok (.obj []) := by
  refine ⟨rfl, ?_⟩
  intro h
  have h2 : (Except.ok JSValue.undefined : Except JSError JSValue) = .ok (.obj []) := h
  cases h2

/-- C7 (amended): for the empty argument list the value built is `undefined`, and that is
what a stream without `match` field is invoked with. -/
theorem log_nil_hands_undefined (stringify : JSValue → Option String) (key : String)
    (logger : LogStream) (rest : List (String × LogStream)) (type : String)
    (hm : logger.matchField = none) :
    buildRecord [] = .ok .undefined ∧
    (log stringify ((key, logger) :: rest) type []).calls.head? =
      some ⟨key, type, .undefined⟩ := by
  refine ⟨rfl, ?_⟩
  have hrec : buildRecord [] = .ok .undefined := rfl
  simp only [log, hrec, fanOut, hm]
  cases logger.call type .undefined <;> rfl

/-- C7 (amended), an instance: one accepting stream. -/
theorem log_nil_hands_undefined_witness :
    buildRecord [] = .ok .undefined ∧
    (log sampleStringify [("stdout", acceptingStream "stdout")] "info" []).calls.head? =
      some ⟨"stdout", "info", .undefined⟩ :=
  log_nil_hands_undefined sampleStringify "stdout" (acceptingStream "stdout") [] "info" rfl

/-! ## Match filter -/

/-- C8 (counterexample): the second stream declares a `match` field that accepts the rendered
record `boom `, yet it receives no call, because the sink of the first stream throws. -/
theorem log_matching_stream_not_reached :
    buildRecord [.str "boom"] = .ok (.str "boom ") ∧
    (boomStream "second").matchField.map
      (fun test => test (stripQuotes ((sampleStringify (.str "boom ")).getD ""))) = some true ∧
    callsTo "second"
      (log sampleStringify [("first", throwingStream "first"), ("second", boomStream "second")]
        "info" [.str "boom"]) = [] := by
  refine ⟨rfl, rfl, rfl⟩

/-- C8 (amended): for a stream with a `match` field, registered under a key of its own, and
arguments whose fold gives a record with a rendering: when the test rejects the rendered
text without quotes the stream receives no call; when it accepts it and the loop has
served the streams before it, the stream receives exactly one call, with the requested
type and the record. -/
theorem log_match_filter (stringify : JSValue → Option String)
    (before after : List (String × LogStream)) (key : String) (logger : LogStream)
    (test : String → Bool) (type : String) (args : List JSValue) (record : JSValue)
    (rendered : String)
    (hkey : key ∉ (before ++ after).map Prod.fst)
    (hm : logger.matchField = some test)
    (hrec : buildRecord args = .ok record)
    (hs : stringify record = some rendered) :
    (test (stripQuotes rendered) = false →
      callsTo key (log stringify (before ++ (key, logger) :: after) type args) = []) ∧
    (test (stripQuotes rendered) = true →
      (fanOut stringify type record before).result = .ok () →
      callsTo key (log stringify (before ++ (key, logger) :: after) type args) =
        [⟨key, type, record⟩]) := by
  have hkb : key ∉ before.map Prod.fst := fun h => hkey (by simp [h])
  have hka : key ∉ after.map Prod.fst := fun h => hkey (by simp [h])
  have hnb := callsTo_fanOut_nil stringify type record before key hkb
  have hna := callsTo_fanOut_nil stringify type record after key hka
  constructor
  · intro ht
    simp only [callsTo, log, hrec]
    obtain ⟨more, hcalls, hmore⟩ := fanOut_append_calls stringify type record before
      ((key, logger) :: after)
    rw [hcalls, List.filter_append, hnb]
    rcases hmore with h | h
    · simp [h]
    · rw [h, fanOut_cons_skip stringify type record key logger after test rendered hm hs ht, hna]
      rfl
  · intro ht hbefore
    simp only [callsTo, log, hrec]
    rw [fanOut_append_ok stringify type record before _ hbefore]
    simp only [List.filter_append, hnb, List.nil_append]
    have hsel : selected stringify record logger := Or.inr ⟨test, rendered, hm, hs, ht⟩
    cases hc : logger.call type record with
    | ok u =>
      rw [fanOut_cons_ok stringify type record key logger after hsel hc]
      simp [List.filter_cons, hna]
    | error e =>
      rw [fanOut_cons_throw stringify type record key logger after e hsel hc]
      simp [List.filter_cons]

/-- C8 (amended), two instances: a stream that looks for `boom` receives nothing for the
argument `x` and exactly one call for the argument `boom`. -/
theorem log_match_filter_witness :
    callsTo "second"
      (log sampleStringify
        ([("first", acceptingStream "first")] ++ ("second", boomStream "second") :: [])
        "info" [.str "x"]) = [] ∧
    callsTo "second"
      (log sampleStringify
        ([("first", acceptingStream "first")] ++ ("second", boomStream "second") :: [])
        "info" [.str "boom"]) = [⟨"second", "info", .str "boom "⟩] :=
  ⟨(log_match_filter sampleStringify [("first", acceptingStream "first")] [] "second"
      (boomStream "second") (fun text => containsRun "boom".toList text.toList) "info"
      [.str "x"] (.str "x ")
      (String.mk [Char.ofNat 34, Char.ofNat 120, Char.ofNat 32, Char.ofNat 34])
      (by decide) rfl rfl rfl).1 rfl,
   (log_match_filter sampleStringify [("first", acceptingStream "first")] [] "second"
      (boomStream "second") (fun text => containsRun "boom".toList text.toList) "info"
      [.str "boom"] (.str "boom ")
      (String.mk (Char.ofNat 34 :: "boom ".toList ++ [Char.ofNat 34]))
      (by decide) rfl rfl rfl).2 rfl rfl⟩

/-! ## Construction -/

theorem initFields_obj (props : Props) (lg : Logger)
    (h : Logger.initFields (.obj props) = .ok lg) :
    lg.level = jsOr ((getProp props "LEVEL").getD .undefined) (.str "info") ∧
      lg.streams = [] := by
  simp only [Logger.initFields, getMember, bind, Except.bind, pure, Except.pure] at h
  cases hp : normalizePath
      (jsOr ((getProp props "log_path").getD .undefined) (.str "/home/ubuntu")) with
  | error e => simp [hp] at h
  | ok path =>
    simp only [hp] at h
    cases hr : (getProp props "rotation").getD .undefined with
    | undefined => simp [hr] at h
    | null => simp [hr] at h
    | obj rprops =>
      simp only [hr, Except.ok.injEq] at h
      subst h
      exact ⟨rfl, rfl⟩
    | _ =>
      simp only [hr, Except.ok.injEq] at h
      subst h
      exact ⟨rfl, rfl⟩

theorem threshold_setEntry (self : Logger) (key other : String) (entry : StreamEntry) :
    Logger.threshold { self with streams := setEntry self.streams key entry } other =
      if key = other then some entry.log.level else self.threshold other := by
  unfold Logger.threshold
  simp only [find_setEntry]
  by_cases h : key = other <;> simp [h]

theorem setStdoutStream_threshold (self : Logger) :
    self.setStdoutStream.level = self.level ∧
    self.setStdoutStream.threshold "stdout" = some self.level ∧
    self.setStdoutStream.threshold "file-all" = self.threshold "file-all" := by
  refine ⟨rfl, ?_, ?_⟩
  · unfold Logger.setStdoutStream
    rw [threshold_setEntry]
    simp
  · unfold Logger.setStdoutStream
    rw [threshold_setEntry]
    simp

theorem setFileStream_threshold (self next : Logger) (h : self.setFileStream = .ok next) :
    next.level = self.level ∧
    next.threshold "stdout" = self.threshold "stdout" ∧
    next.threshold "file-all" = some self.level := by
  simp only [Logger.setFileStream, bind, Except.bind, pure, Except.pure] at h
  cases henv : self.env.toStringJS with
  | error e => simp [henv] at h
  | ok env =>
    simp only [henv] at h
    by_cases hrot : self.rotation.enabled.truthy = true
    · simp only [hrot, if_true, Except.ok.injEq] at h
      subst h
      refine ⟨rfl, ?_, ?_⟩
      · unfold Logger.threshold
        simp [find_setEntry]
      · unfold Logger.threshold
        simp [find_setEntry]
    · simp only [hrot, Bool.false_eq_true, if_false, Except.ok.injEq] at h
      subst h
      refine ⟨rfl, ?_, ?_⟩
      · unfold Logger.threshold
        simp [find_setEntry]
      · unfold Logger.threshold
        simp [find_setEntry]

theorem callSetter_threshold (self next : Logger) (way : JSValue)
    (h : self.callSetter way = .ok next)
    (hstdout : ∀ v, self.threshold "stdout" = some v → v = self.level)
    (hall : ∀ v, self.threshold "file-all" = some v → v = self.level) :
    next.level = self.level ∧
    (∀ v, next.threshold "stdout" = some v → v = next.level) ∧
    (∀ v, next.threshold "file-all" = some v → v = next.level) := by
  simp only [Logger.callSetter, bind, Except.bind, pure, Except.pure] at h
  cases hn : Logger.setterName way with
  | error e => simp [hn] at h
  | ok name =>
    simp only [hn] at h
    by_cases h1 : name = "setStdoutStream"
    · simp only [h1, if_true, Except.ok.injEq] at h
      subst h
      obtain ⟨hl, hs, ha⟩ := setStdoutStream_threshold self
      refine ⟨hl, ?_, ?_⟩
      · intro v hv
        rw [hs] at hv
        rw [hl]
        exact (Option.some.inj hv).symm
      · intro v hv
        rw [ha] at hv
        rw [hl]
        exact hall v hv
    · by_cases h2 : name = "setFileStream"
      · simp only [h2, if_true] at h
        have h3 : self.setFileStream = .ok next := by
          simpa using h
        obtain ⟨hl, hs, ha⟩ := setFileStream_threshold self next h3
        refine ⟨hl, ?_, ?_⟩
        · intro v hv
          rw [hs] at hv
          rw [hl]
          exact hstdout v hv
        · intro v hv
          rw [ha] at hv
          rw [hl]
          exact (Option.some.inj hv).symm
      · simp [h1, h2] at h

theorem foldlM_callSetter_threshold (ways : List (JSValue × JSValue)) (self next : Logger)
    (h : ways.foldlM (fun lg entry => Logger.callSetter lg entry.1) self = .ok next)
    (hstdout : ∀ v, self.threshold "stdout" = some v → v = self.level)
    (hall : ∀ v, self.threshold "file-all" = some v → v = self.level) :
    next.level = self.level ∧
    (∀ v, next.threshold "stdout" = some v → v = next.level) ∧
    (∀ v, next.threshold "file-all" = some v → v = next.level) := by
  induction ways generalizing self with
  | nil =>
    simp only [List.foldlM_nil, pure, Except.pure, Except.ok.injEq] at h
    subst h
    exact ⟨rfl, hstdout, hall⟩
  | cons entry rest ih =>
    rw [List.foldlM_cons] at h
    cases hstep : Logger.callSetter self entry.1 with
    | error e => simp [hstep, bind, Except.bind] at h
    | ok mid =>
      simp only [hstep, bind, Except.bind] at h
      obtain ⟨hl, hs, ha⟩ := callSetter_threshold self mid entry.1 hstep hstdout hall
      obtain ⟨hl2, hs2, ha2⟩ := ih mid h hs ha
      exact ⟨hl2.trans hl, hs2, ha2⟩

/-- C9 (counterexample): the configuration `{level: 'debug', rotation: {}}` constructs a logger
whose console stream and `file-all` stream have threshold `info`. -/
theorem construct_ignores_lowercase_level :
    (Logger.construct (.obj [("level", .str "debug"), ("rotation", .obj [])])).map
        (fun lg => (lg.threshold "stdout", lg.threshold "file-all")) =
      .ok (some (.str "info"), some (.str "info")) := by
  rfl

/-- C9 (amended): when construction succeeds, the level of the logger is the `LEVEL` option
if that is truthy and `info` otherwise, and it is the threshold of the console stream and of
the `file-all` stream whenever these are built. -/
theorem construct_threshold_is_LEVEL (props : Props) (lg : Logger)
    (h : Logger.construct (.obj props) = .ok lg) :
    lg.level = jsOr ((getProp props "LEVEL").getD .undefined) (.str "info") ∧
    (∀ v, lg.threshold "stdout" = some v → v = lg.level) ∧
    (∀ v, lg.threshold "file-all" = some v → v = lg.level) := by
  simp only [Logger.construct, bind, Except.bind] at h
  cases hinit : Logger.initFields (.obj props) with
  | error e => simp [hinit] at h
  | ok self =>
    simp only [hinit] at h
    obtain ⟨hlevel, hstreams⟩ := initFields_obj props self hinit
    have hempty : ∀ key v, self.threshold key = some v → v = self.level := by
      intro key v hv
      simp [Logger.threshold, hstreams] at hv
    obtain ⟨hl, hs, ha⟩ := foldlM_callSetter_threshold _ self lg h
      (hempty "stdout") (hempty "file-all")
    exact ⟨hl.trans hlevel, hs, ha⟩

/-- C9 (amended), an instance: `{LEVEL: 'debug', rotation: {}}`. -/
theorem construct_threshold_is_LEVEL_witness :
    Logger.construct (.obj [("LEVEL", .str "debug"), ("rotation", .obj [])]) = .ok debugLogger ∧
    debugLogger.level =
      jsOr ((getProp [("LEVEL", .str "debug"), ("rotation", .obj [])] "LEVEL").getD .undefined)
        (.str "info") ∧
    (∀ v, debugLogger.threshold "stdout" = some v → v = debugLogger.level) ∧
    (∀ v, debugLogger.threshold "file-all" = some v → v = debugLogger.level) :=
  ⟨rfl, construct_threshold_is_LEVEL [("LEVEL", .str "debug"), ("rotation", .obj [])]
    debugLogger rfl⟩

/-- C10 (code defect): the claim says that construction without a `rotation` option succeeds
with the default fields. Without an argument, and for every configuration object that has
no `rotation` property, the constructor throws a `TypeError` (line 31 reads
`options.rotation.enabled`). -/
theorem construct_without_rotation_throws (options : JSValue)
    (h : options = .undefined ∨ ∃ props, options = .obj props ∧ getProp props "rotation" = none) :
    ∃ message, Logger.construct options = .error (.typeError message) := by
  have key : ∀ props : Props, getProp props "rotation" = none →
      ∃ message, (do
        let self ← Logger.initFields (.obj props)
        (forEachEntries self.outputWays).foldlM (fun lg entry => lg.callSetter entry.1) self) =
          (.error (.typeError message) : Except JSError Logger) := by
    intro props hrot
    simp only [Logger.initFields, getMember, bind, Except.bind, pure, Except.pure, hrot,
      Option.getD_none]
    cases hp : normalizePath
        (jsOr ((getProp props "log_path").getD .undefined) (.str "/home/ubuntu")) with
    | error e =>
      cases hv : jsOr ((getProp props "log_path").getD .undefined) (.str "/home/ubuntu") with
      | str path => simp [hv, normalizePath] at hp
      | _ =>
        simp only [hv, normalizePath, Except.error.injEq] at hp
        subst hp
        exact ⟨_, rfl⟩
    | ok path => exact ⟨_, rfl⟩
  rcases h with h | ⟨props, h, hrot⟩
  · subst h
    exact key [] rfl
  · subst h
    exact key props hrot

/-- C10, two instances: no argument, and the empty configuration. -/
theorem construct_without_rotation_throws_witness :
    (∃ message, Logger.construct .undefined = .error (.typeError message)) ∧
    (∃ message, Logger.construct (.obj []) = .error (.typeError message)) :=
  ⟨construct_without_rotation_throws .undefined (Or.inl rfl),
   construct_without_rotation_throws (.obj []) (Or.inr ⟨[], rfl, rfl⟩)⟩

/-! ## Lemmas on the registry -/

theorem mem_setEntry {α : Type} (table : List (String × α)) (key : String) (value : α)
    (p : String × α) (h : p ∈ setEntry table key value) : p = (key, value) ∨ p ∈ table := by
  induction table with
  | nil =>
    simp only [setEntry, List.mem_singleton] at h
    exact Or.inl h
  | cons head tail ih =>
    obtain ⟨k, v⟩ := head
    by_cases hk : k = key
    · simp only [setEntry, hk, if_true, List.mem_cons] at h
      rcases h with h | h
      · exact Or.inl h
      · exact Or.inr (List.mem_cons_of_mem _ h)
    · simp only [setEntry, hk, if_false, List.mem_cons] at h
      rcases h with h | h
      · exact Or.inr (h ▸ List.mem_cons_self _ _)
      · rcases ih h with h2 | h2
        · exact Or.inl h2
        · exact Or.inr (List.mem_cons_of_mem _ h2)

theorem setFileStream_eq (self next : Logger) (h : self.setFileStream = .ok next) :
    self.env.toStringJS = .ok self.envText ∧
    next = { self with streams := self.fileStreams } := by
  simp only [Logger.setFileStream, bind, Except.bind, pure, Except.pure] at h
  cases henv : self.env.toStringJS with
  | error e => simp [henv] at h
  | ok env =>
    have htext : self.envText = env := by simp [Logger.envText, henv]
    simp only [henv] at h
    refine ⟨by rw [htext], ?_⟩
    by_cases hrot : self.rotation.enabled.truthy = true
    · simp only [hrot, if_true, Except.ok.injEq] at h
      subst h
      simp [Logger.fileStreams, hrot, Logger.fileErrorsEntry, Logger.fileAllEntry,
        Logger.rotationErrorsEntry, Logger.rotationAllEntry, htext]
    · simp only [hrot, Bool.false_eq_true, if_false, Except.ok.injEq] at h
      subst h
      simp [Logger.fileStreams, hrot, Logger.fileErrorsEntry, Logger.fileAllEntry, htext]

theorem callSetter_eq (self next : Logger) (way : JSValue)
    (h : self.callSetter way = .ok next) :
    (Logger.setterName way = .ok "setStdoutStream" ∧ next = self.setStdoutStream) ∨
    (Logger.setterName way = .ok "setFileStream" ∧ self.setFileStream = .ok next) := by
  simp only [Logger.callSetter, bind, Except.bind, pure, Except.pure] at h
  cases hn : Logger.setterName way with
  | error e => simp [hn] at h
  | ok name =>
    simp only [hn] at h
    by_cases h1 : name = "setStdoutStream"
    · simp only [h1, if_true, Except.ok.injEq] at h
      exact Or.inl ⟨by rw [h1], h.symm⟩
    · by_cases h2 : name = "setFileStream"
      · simp only [h2, if_true] at h
        have h3 : self.setFileStream = .ok next := by simpa using h
        exact Or.inr ⟨by rw [h2], h3⟩
      · simp [h1, h2] at h

/-- A setter changes the registry only. -/
theorem callSetter_frame (self next : Logger) (way : JSValue)
    (h : self.callSetter way = .ok next) :
    next = { self with streams := next.streams } := by
  rcases callSetter_eq self next way h with ⟨_, h2⟩ | ⟨_, h2⟩
  · subst h2
    rfl
  · rw [(setFileStream_eq self next h2).2]

theorem foldlM_callSetter_frame (ways : List (JSValue × JSValue)) (self next : Logger)
    (h : ways.foldlM (fun lg entry => Logger.callSetter lg entry.1) self = .ok next) :
    next = { self with streams := next.streams } := by
  induction ways generalizing self with
  | nil =>
    simp only [List.foldlM_nil, pure, Except.pure, Except.ok.injEq] at h
    subst h
    rfl
  | cons entry rest ih =>
    rw [List.foldlM_cons] at h
    cases hstep : Logger.callSetter self entry.1 with
    | error e => simp [hstep, bind, Except.bind] at h
    | ok mid =>
      simp only [hstep, bind, Except.bind] at h
      have h1 := callSetter_frame self mid entry.1 hstep
      have h2 := ih mid h
      rw [h2, h1]

/-- Every entry of the registry is the one its setter writes from the fields of the logger,
and a file entry exists only when `this.env` has a string form. -/
theorem callSetter_registry (self next : Logger) (way : JSValue)
    (h : self.callSetter way = .ok next)
    (hinv : ∀ p ∈ self.streams, self.registryEntry p.1 = some p.2 ∧
      (p.1 = "stdout" ∨ self.env.toStringJS = .ok self.envText)) :
    ∀ p ∈ next.streams, next.registryEntry p.1 = some p.2 ∧
      (p.1 = "stdout" ∨ next.env.toStringJS = .ok next.envText) := by
  have hframe := callSetter_frame self next way h
  have hreg : ∀ key, next.registryEntry key = self.registryEntry key := by
    intro key
    rw [hframe]
    rfl
  have henvText : next.envText = self.envText := by
    rw [hframe]
    rfl
  have henv : next.env = self.env := by
    rw [hframe]
  intro p hp
  rw [hreg, henv, henvText]
  rcases callSetter_eq self next way h with ⟨_, h2⟩ | ⟨_, h2⟩
  · subst h2
    rcases mem_setEntry _ _ _ p hp with h3 | h3
    · subst h3
      exact ⟨rfl, Or.inl rfl⟩
    · exact hinv p h3
  · obtain ⟨hok, hnext⟩ := setFileStream_eq self next h2
    rw [hnext] at hp
    simp only [Logger.fileStreams] at hp
    by_cases hrot : self.rotation.enabled.truthy = true
    · simp only [hrot, if_true] at hp
      rcases mem_setEntry _ _ _ p hp with h3 | h3
      · subst h3
        exact ⟨rfl, Or.inr hok⟩
      · rcases mem_setEntry _ _ _ p h3 with h4 | h4
        · subst h4
          exact ⟨rfl, Or.inr hok⟩
        · rcases mem_setEntry _ _ _ p h4 with h5 | h5
          · subst h5
            exact ⟨rfl, Or.inr hok⟩
          · rcases mem_setEntry _ _ _ p h5 with h6 | h6
            · subst h6
              exact ⟨rfl, Or.inr hok⟩
            · exact hinv p h6
    · simp only [hrot, Bool.false_eq_true, if_false] at hp
      rcases mem_setEntry _ _ _ p hp with h3 | h3
      · subst h3
        exact ⟨rfl, Or.inr hok⟩
      · rcases mem_setEntry _ _ _ p h3 with h4 | h4
        · subst h4
          exact ⟨rfl, Or.inr hok⟩
        · exact hinv p h4

theorem foldlM_callSetter_registry (ways : List (JSValue × JSValue)) (self next : Logger)
    (h : ways.foldlM (fun lg entry => Logger.callSetter lg entry.1) self = .ok next)
    (hinv : ∀ p ∈ self.streams, self.registryEntry p.1 = some p.2 ∧
      (p.1 = "stdout" ∨ self.env.toStringJS = .ok self.envText)) :
    ∀ p ∈ next.streams, next.registryEntry p.1 = some p.2 ∧
      (p.1 = "stdout" ∨ next.env.toStringJS = .ok next.envText) := by
  induction ways generalizing self with
  | nil =>
    simp only [List.foldlM_nil, pure, Except.pure, Except.ok.injEq] at h
    subst h
    exact hinv
  | cons entry rest ih =>
    rw [List.foldlM_cons] at h
    cases hstep : Logger.callSetter self entry.1 with
    | error e => simp [hstep, bind, Except.bind] at h
    | ok mid =>
      simp only [hstep, bind, Except.bind] at h
      exact ih mid h (callSetter_registry self mid entry.1 hstep hinv)

/-- The fields that lines 10-34 compute from a configuration object. -/
theorem initFields_fields (props : Props) (self : Logger)
    (h : Logger.initFields (.obj props) = .ok self) :
    self.env = jsOr ((getProp props "env").getD .undefined) (.str "development") ∧
    self.outputWays = jsOr ((getProp props "outputWays").getD .undefined)
      (.arr [.str "File", .str "Stdout"]) ∧
    self.serviceName = jsOr ((getProp props "serviceName").getD .undefined) (.str "localhost") ∧
    self.level = jsOr ((getProp props "LEVEL").getD .undefined) (.str "info") ∧
    self.mode = jsOr ((getProp props "MODE").getD .undefined) (.str "short") ∧
    normalizePath (jsOr ((getProp props "log_path").getD .undefined) (.str "/home/ubuntu")) =
      .ok self.path ∧
    (∃ enabled period count,
      getMember ((getProp props "rotation").getD .undefined) "enabled" = .ok enabled ∧
      getMember ((getProp props "rotation").getD .undefined) "period" = .ok period ∧
      getMember ((getProp props "rotation").getD .undefined) "count" = .ok count ∧
      self.rotation = ⟨jsOr enabled (.bool false), jsOr period (.str "6h"), count⟩) ∧
    self.streams = [] := by
  simp only [Logger.initFields, getMember, bind, Except.bind, pure, Except.pure] at h
  cases hp : normalizePath
      (jsOr ((getProp props "log_path").getD .undefined) (.str "/home/ubuntu")) with
  | error e => simp [hp] at h
  | ok path =>
    simp only [hp] at h
    cases hr : (getProp props "rotation").getD .undefined with
    | undefined => simp [hr] at h
    | null => simp [hr] at h
    | obj rprops =>
      simp only [hr, Except.ok.injEq] at h
      subst h
      exact ⟨rfl, rfl, rfl, rfl, rfl, rfl, ⟨_, _, _, rfl, rfl, rfl, rfl⟩, rfl⟩
    | _ =>
      simp only [hr, Except.ok.injEq] at h
      subst h
      exact ⟨rfl, rfl, rfl, rfl, rfl, rfl, ⟨_, _, _, rfl, rfl, rfl, rfl⟩, rfl⟩

/-- A successful construction: the fields come from `initFields`, the setters fill the
registry. -/
theorem construct_obj (props : Props) (lg : Logger)
    (h : Logger.construct (.obj props) = .ok lg) :
    ∃ self, Logger.initFields (.obj props) = .ok self ∧
      (forEachEntries self.outputWays).foldlM
        (fun lg entry => Logger.callSetter lg entry.1) self = .ok lg ∧
      lg = { self with streams := lg.streams } ∧
      ∀ p ∈ lg.streams, lg.registryEntry p.1 = some p.2 ∧
        (p.1 = "stdout" ∨ lg.env.toStringJS = .ok lg.envText) := by
  simp only [Logger.construct, bind, Except.bind] at h
  cases hinit : Logger.initFields (.obj props) with
  | error e => simp [hinit] at h
  | ok self =>
    simp only [hinit] at h
    have hstreams := (initFields_fields props self hinit).2.2.2.2.2.2.2
    refine ⟨self, rfl, h, foldlM_callSetter_frame _ self lg h,
      foldlM_callSetter_registry _ self lg h ?_⟩
    intro p hp
    simp [hstreams] at hp

/-! ## Registry built by the constructor -/

theorem registry_of_file_only (props : Props) (lg : Logger)
    (hways : getProp props "outputWays" = some (.arr [.str "File"]))
    (h : Logger.construct (.obj props) = .ok lg)
    (hrot : lg.rotation.enabled.truthy = false) :
    lg.streams.map Prod.fst = ["file-errors", "file-all"] ∧
    lg.threshold "file-errors" = some (.str "error") ∧
    lg.threshold "file-all" = some lg.level ∧
    lg.level = jsOr ((getProp props "LEVEL").getD .undefined) (.str "info") := by
  obtain ⟨self, hinit, hfold, hframe, _⟩ := construct_obj props lg h
  obtain ⟨_, hout, _, hlevel, _, _, _, hstreams⟩ := initFields_fields props self hinit
  have hways2 : self.outputWays = .arr [.str "File"] := by
    rw [hout, hways]
    rfl
  rw [hways2] at hfold
  have hstep : Logger.callSetter self (.str "File") = .ok lg := by
    simp only [forEachEntries, List.enum, List.enumFrom, List.map, List.foldlM_cons,
      List.foldlM_nil, bind, Except.bind, pure, Except.pure] at hfold
    cases hc : Logger.callSetter self (.str "File") with
    | error e => simp [hc] at hfold
    | ok mid =>
      simp only [hc, Except.ok.injEq] at hfold
      rw [hfold]
  have hrot2 : self.rotation.enabled.truthy = false := by
    rw [hframe] at hrot
    exact hrot
  rcases callSetter_eq self lg (.str "File") hstep with ⟨hname, _⟩ | ⟨_, hset⟩
  · have : Logger.setterName (.str "File") = .ok "setFileStream" := rfl
    rw [this] at hname
    simp at hname
  · obtain ⟨_, hnext⟩ := setFileStream_eq self lg hset
    have hlist : lg.streams =
        [("file-errors", self.fileErrorsEntry), ("file-all", self.fileAllEntry)] := by
      rw [hnext]
      simp [Logger.fileStreams, hrot2, hstreams, setEntry]
    have hl : lg.level = self.level := by rw [hframe]
    refine ⟨?_, ?_, ?_, hl.trans hlevel⟩
    · rw [hlist]
      rfl
    · simp [Logger.threshold, hlist, Logger.fileErrorsEntry]
    · simp [Logger.threshold, hlist, Logger.fileAllEntry, hl]

/-- Construction succeeds for a configuration with `outputWays = ['File']`, a `rotation`
object, a usable path and an environment that has a string form. -/
theorem construct_file_only_succeeds (props rot : Props) (path envText : String)
    (hways : getProp props "outputWays" = some (.arr [.str "File"]))
    (hrotation : getProp props "rotation" = some (.obj rot))
    (hpath : normalizePath
      (jsOr ((getProp props "log_path").getD .undefined) (.str "/home/ubuntu")) = .ok path)
    (henv : (jsOr ((getProp props "env").getD .undefined) (.str "development")).toStringJS =
      .ok envText) :
    ∃ lg, Logger.construct (.obj props) = .ok lg := by
  have hout : jsOr (JSValue.arr [.str "File"]) (.arr [.str "File", .str "Stdout"]) =
      .arr [.str "File"] := rfl
  have hinit : ∃ self, Logger.initFields (.obj props) = .ok self ∧
      self.outputWays = .arr [.str "File"] ∧
      self.env = jsOr ((getProp props "env").getD .undefined) (.str "development") := by
    simp only [Logger.initFields, getMember, hways, hrotation, hpath, bind, Except.bind, pure,
      Except.pure, Option.getD_some, hout]
    exact ⟨_, rfl, rfl, rfl⟩
  obtain ⟨self, hself, hways2, henv2⟩ := hinit
  have hname : Logger.setterName (.str "File") = .ok "setFileStream" := rfl
  have hset : ∃ lg, self.setFileStream = .ok lg := by
    simp only [Logger.setFileStream, henv2, henv, bind, Except.bind, pure, Except.pure]
    split <;> exact ⟨_, rfl⟩
  obtain ⟨lg, hlg⟩ := hset
  refine ⟨lg, ?_⟩
  simp only [Logger.construct, hself, hways2, bind, Except.bind, forEachEntries, List.enum,
    List.enumFrom, List.map, List.foldlM_cons, List.foldlM_nil, Logger.callSetter, hname]
  simp [hlg, pure, Except.pure]

/-- C11: for a configuration with `outputWays = ['File']`, a constructed logger whose rotation
is not enabled has a registry of exactly two streams, `file-errors` and `file-all` in that
order; the threshold of `file-errors` is `error` whatever the level, the threshold of
`file-all` is the level of the logger. Construction does succeed when the configuration has
a `rotation` object, a usable path and an environment with a string form. -/
theorem construct_file_only_registry (props : Props)
    (hways : getProp props "outputWays" = some (.arr [.str "File"])) :
    (∀ lg, Logger.construct (.obj props) = .ok lg → lg.rotation.enabled.truthy = false →
      lg.streams.map Prod.fst = ["file-errors", "file-all"] ∧
      lg.threshold "file-errors" = some (.str "error") ∧
      lg.threshold "file-all" = some lg.level ∧
      lg.level = jsOr ((getProp props "LEVEL").getD .undefined) (.str "info")) ∧
    (∀ rot path envText, getProp props "rotation" = some (.obj rot) →
      normalizePath (jsOr ((getProp props "log_path").getD .undefined) (.str "/home/ubuntu")) =
        .ok path →
      (jsOr ((getProp props "env").getD .undefined) (.str "development")).toStringJS =
        .ok envText →
      ∃ lg, Logger.construct (.obj props) = .ok lg) :=
  ⟨fun lg h hrot => registry_of_file_only props lg hways h hrot,
   fun rot path envText hrotation hpath henv =>
     construct_file_only_succeeds props rot path envText hways hrotation hpath henv⟩

/-- C11, an instance: `{outputWays: ['File'], rotation: {enabled: false}}` constructs
`fileOnlyLogger`, whose registry has the two file streams. -/
theorem construct_file_only_registry_witness :
    Logger.construct (.obj fileOnlyOptions) = .ok fileOnlyLogger ∧
    fileOnlyLogger.streams.map Prod.fst = ["file-errors", "file-all"] ∧
    fileOnlyLogger.threshold "file-errors" = some (.str "error") ∧
    fileOnlyLogger.threshold "file-all" = some fileOnlyLogger.level ∧
    fileOnlyLogger.level =
      jsOr ((getProp fileOnlyOptions "LEVEL").getD .undefined) (.str "info") :=
  ⟨rfl, (construct_file_only_registry fileOnlyOptions rfl).1 fileOnlyLogger rfl rfl⟩

/-! ## Rotating streams -/

/-- C12 (code defect): the claim says that `rotation-errors` has threshold `error`. For
`{outputWays: ['File'], rotation: {enabled: true, period: '1d', count: 3}}` the stream
`rotation-errors` has the level of the logger, `info`, while `file-errors` has `error`. -/
theorem construct_rotation_errors_threshold :
    (Logger.construct (.obj rotatingOptions)).map
        (fun lg => (lg.threshold "rotation-errors", lg.threshold "file-errors",
          lg.threshold "rotation-all")) =
      .ok (some (.str "info"), some (.str "error"), some (.str "info")) := by
  rfl

/-- C13 (code defect): the claim says that `rotation-all` has the path of `file-all`. For
`{outputWays: ['File'], rotation: {enabled: true, period: '1d', count: 3}}` the path of
`rotation-all` is `/home/ubuntu/undefined_.log`, without the environment, while the path of
`file-all` is `/home/ubuntu/undefined_development.log`; the two error paths agree. -/
theorem construct_rotation_all_path :
    (Logger.construct (.obj rotatingOptions)).map
        (fun lg => (lg.pathOf "rotation-all", lg.pathOf "file-all",
          lg.pathOf "rotation-errors", lg.pathOf "file-errors")) =
      .ok (some "/home/ubuntu/undefined_.log", some "/home/ubuntu/undefined_development.log",
        some "/home/ubuntu/undefined_development.error.log",
        some "/home/ubuntu/undefined_development.error.log") := by
  rfl

/-! ## Base path -/

theorem endsWithSeparator_append_slash (path : String) :
    endsWithSeparator (path ++ "/") = true := by
  have h : (path ++ "/").toList = path.toList ++ [Char.ofNat 47] := by
    simp [String.toList]
  simp [endsWithSeparator, h]

theorem normalizePath_ends (value : JSValue) (path : String)
    (h : normalizePath value = .ok path) : endsWithSeparator path = true := by
  cases value with
  | str p =>
    simp only [normalizePath, Except.ok.injEq] at h
    by_cases he : endsWithSeparator p = true
    · simp only [he, if_true] at h
      rw [← h]
      exact he
    · simp only [he, Bool.false_eq_true, if_false] at h
      rw [← h]
      exact endsWithSeparator_append_slash p
  | _ => simp [normalizePath] at h

/-- C16: after a successful construction the stored base path ends with a separator; for a
non-empty `log_path` string `p` it is `p` when `p` ends with a slash or a backslash and
`p + '/'` otherwise; it is `/home/ubuntu/` when `log_path` is absent or empty; normalising
the stored path again leaves it unchanged. -/
theorem construct_base_path (props : Props) (lg : Logger)
    (h : Logger.construct (.obj props) = .ok lg) :
    (∀ p, getProp props "log_path" = some (.str p) → p ≠ "" →
      lg.path = if endsWithSeparator p then p else p ++ "/") ∧
    (getProp props "log_path" = none ∨ getProp props "log_path" = some (.str "") →
      lg.path = "/home/ubuntu/") ∧
    endsWithSeparator lg.path = true ∧
    normalizePath (.str lg.path) = .ok lg.path := by
  obtain ⟨self, hinit, _, hframe, _⟩ := construct_obj props lg h
  obtain ⟨_, _, _, _, _, hpath, _, _⟩ := initFields_fields props self hinit
  have hp : lg.path = self.path := by rw [hframe]
  rw [hp]
  have hends := normalizePath_ends _ _ hpath
  refine ⟨?_, ?_, hends, ?_⟩
  · intro p hprop hne
    have hor : jsOr (JSValue.str p) (.str "/home/ubuntu") = .str p := by
      simp [jsOr, JSValue.truthy, hne]
    rw [hprop, Option.getD_some, hor] at hpath
    simp only [normalizePath, Except.ok.injEq] at hpath
    exact hpath.symm
  · intro hcase
    have hdefault : jsOr ((getProp props "log_path").getD .undefined) (.str "/home/ubuntu") =
        .str "/home/ubuntu" := by
      rcases hcase with hnone | hempty
      · rw [hnone]
        rfl
      · rw [hempty]
        rfl
    rw [hdefault] at hpath
    have hval : normalizePath (.str "/home/ubuntu") = .ok "/home/ubuntu/" := rfl
    rw [hval] at hpath
    exact (Except.ok.inj hpath).symm
  · simp [normalizePath, hends]

/-- C16, an instance: `{log_path: '/var/log', ...}` stores `/var/log/`. -/
theorem construct_base_path_witness :
    Logger.construct (.obj varLogOptions) = .ok varLogLogger ∧
    varLogLogger.path = (if endsWithSeparator "/var/log" then "/var/log" else "/var/log" ++ "/") ∧
    endsWithSeparator varLogLogger.path = true ∧
    normalizePath (.str varLogLogger.path) = .ok varLogLogger.path :=
  ⟨rfl, (construct_base_path varLogOptions varLogLogger rfl).1 "/var/log" rfl (by decide),
    (construct_base_path varLogOptions varLogLogger rfl).2.2⟩

/-! ## File paths -/

theorem entry_mem (lg : Logger) (key : String) (entry : StreamEntry)
    (h : lg.entry key = some entry) : (key, entry) ∈ lg.streams := by
  unfold Logger.entry at h
  cases hf : lg.streams.find? (fun p => p.1 == key) with
  | none => simp [hf] at h
  | some p =>
    simp only [hf, Option.map_some', Option.some.injEq] at h
    have hmem := List.mem_of_find?_eq_some hf
    have hkey := List.find?_some hf
    have hk : p.1 = key := by simpa using hkey
    have hp : p = (key, entry) := by
      rw [← hk, ← h]
    rw [← hp]
    exact hmem

theorem undefined_segment (path rest : String) :
    path ++ "undefined" ++ "_" ++ rest = path ++ "undefined_" ++ rest := by
  have h : path ++ "undefined" ++ "_" = path ++ "undefined_" := by
    rw [String.append_assoc]
    rfl
  rw [h]

/-- A setter does not read `serviceName`. -/
theorem callSetter_serviceName (self : Logger) (way name : JSValue) :
    Logger.callSetter (self.withServiceName name) way =
      (Logger.callSetter self way).map (fun lg => lg.withServiceName name) := by
  simp only [Logger.callSetter, bind, Except.bind, pure, Except.pure]
  cases Logger.setterName way with
  | error e => rfl
  | ok setter =>
    by_cases h1 : setter = "setStdoutStream"
    · simp only [h1, if_true]
      rfl
    · by_cases h2 : setter = "setFileStream"
      · simp only [h2]
        simp only [Logger.setFileStream, Logger.withServiceName, bind, Except.bind, pure,
          Except.pure]
        cases self.env.toStringJS with
        | error e => rfl
        | ok env =>
          by_cases hrot : self.rotation.enabled.truthy = true
          · simp [hrot, Except.map]
          · simp [hrot, Except.map]
      · simp only [h1, h2, if_false]
        rfl

theorem foldlM_callSetter_serviceName (ways : List (JSValue × JSValue)) (self : Logger)
    (name : JSValue) :
    ways.foldlM (fun lg entry => Logger.callSetter lg entry.1) (self.withServiceName name) =
      (ways.foldlM (fun lg entry => Logger.callSetter lg entry.1) self).map
        (fun lg => lg.withServiceName name) := by
  induction ways generalizing self with
  | nil => rfl
  | cons entry rest ih =>
    rw [List.foldlM_cons, List.foldlM_cons, callSetter_serviceName]
    cases hstep : Logger.callSetter self entry.1 with
    | error e => rfl
    | ok mid =>
      simp only [Except.map, bind, Except.bind]
      exact ih mid

theorem initFields_serviceName (props other : Props)
    (hagree : ∀ key, key ≠ "serviceName" → getProp other key = getProp props key) :
    Logger.initFields (.obj other) =
      (Logger.initFields (.obj props)).map (fun lg => lg.withServiceName
        (jsOr ((getProp other "serviceName").getD .undefined) (.str "localhost"))) := by
  have h1 := hagree "env" (by decide)
  have h2 := hagree "outputWays" (by decide)
  have h3 := hagree "LEVEL" (by decide)
  have h4 := hagree "MODE" (by decide)
  have h5 := hagree "log_path" (by decide)
  have h6 := hagree "rotation" (by decide)
  simp only [Logger.initFields, getMember, bind, Except.bind, pure, Except.pure, h1, h2, h3, h4,
    h5, h6]
  cases normalizePath
      (jsOr ((getProp props "log_path").getD .undefined) (.str "/home/ubuntu")) with
  | error e => rfl
  | ok path =>
    cases (getProp props "rotation").getD .undefined <;> rfl

theorem construct_serviceName (props other : Props)
    (hagree : ∀ key, key ≠ "serviceName" → getProp other key = getProp props key) :
    Logger.construct (.obj other) =
      (Logger.construct (.obj props)).map (fun lg => lg.withServiceName
        (jsOr ((getProp other "serviceName").getD .undefined) (.str "localhost"))) := by
  unfold Logger.construct
  rw [initFields_serviceName props other hagree]
  cases hinit : Logger.initFields (.obj props) with
  | error e => rfl
  | ok self =>
    exact foldlM_callSetter_serviceName (forEachEntries self.outputWays) self _

/-- C17: in every constructed logger the file paths have the text `undefined` where the
domain should be: `file-all` has the path `base + 'undefined_' + env + '.log'`, `file-errors`
the path `base + 'undefined_' + env + '.error.log'`, and every path of the registry starts
with `base + 'undefined_'`. Two configurations that agree on every option but `serviceName`
give the same registry, hence the same paths. -/
theorem construct_paths_undefined_domain (props : Props) :
    (∀ lg, Logger.construct (.obj props) = .ok lg →
      (∀ entry, lg.entry "file-all" = some entry →
        lg.env.toStringJS = .ok lg.envText ∧
        entry.log.path = some (lg.path ++ "undefined_" ++ lg.envText ++ ".log")) ∧
      (∀ entry, lg.entry "file-errors" = some entry →
        lg.env.toStringJS = .ok lg.envText ∧
        entry.log.path = some (lg.path ++ "undefined_" ++ lg.envText ++ ".error.log")) ∧
      (∀ key entry path, lg.entry key = some entry → entry.log.path = some path →
        ∃ rest, path = lg.path ++ "undefined_" ++ rest)) ∧
    (∀ other, (∀ key, key ≠ "serviceName" → getProp other key = getProp props key) →
      (Logger.construct (.obj other)).map (fun lg => lg.streams) =
        (Logger.construct (.obj props)).map (fun lg => lg.streams)) := by
  constructor
  · intro lg h
    obtain ⟨_, _, _, _, hinv⟩ := construct_obj props lg h
    refine ⟨?_, ?_, ?_⟩
    · intro entry he
      obtain ⟨hreg, henv⟩ := hinv _ (entry_mem lg _ entry he)
      simp only [Logger.registryEntry] at hreg
      have hentry : entry = lg.fileAllEntry := by
        simpa using hreg.symm
      refine ⟨?_, ?_⟩
      · rcases henv with h1 | h1
        · simp at h1
        · exact h1
      · rw [hentry]
        simp [Logger.fileAllEntry, undefined_segment]
    · intro entry he
      obtain ⟨hreg, henv⟩ := hinv _ (entry_mem lg _ entry he)
      simp only [Logger.registryEntry] at hreg
      have hentry : entry = lg.fileErrorsEntry := by
        simpa using hreg.symm
      refine ⟨?_, ?_⟩
      · rcases henv with h1 | h1
        · simp at h1
        · exact h1
      · rw [hentry]
        simp [Logger.fileErrorsEntry, undefined_segment]
    · intro key entry path he hpath
      obtain ⟨hreg, _⟩ := hinv _ (entry_mem lg _ entry he)
      simp only [Logger.registryEntry] at hreg
      split at hreg
      · simp only [Option.some.injEq] at hreg
        rw [← hreg] at hpath
        simp [Logger.stdoutEntry] at hpath
      · split at hreg
        · simp only [Option.some.injEq] at hreg
          rw [← hreg] at hpath
          simp only [Logger.fileErrorsEntry, Option.some.injEq] at hpath
          exact ⟨lg.envText ++ ".error.log", by
            rw [← hpath, undefined_segment, String.append_assoc]⟩
        · split at hreg
          · simp only [Option.some.injEq] at hreg
            rw [← hreg] at hpath
            simp only [Logger.fileAllEntry, Option.some.injEq] at hpath
            exact ⟨lg.envText ++ ".log", by
              rw [← hpath, undefined_segment, String.append_assoc]⟩
          · split at hreg
            · simp only [Option.some.injEq] at hreg
              rw [← hreg] at hpath
              simp only [Logger.rotationErrorsEntry, Option.some.injEq] at hpath
              exact ⟨lg.envText ++ ".error.log", by
                rw [← hpath, undefined_segment, String.append_assoc]⟩
            · split at hreg
              · simp only [Option.some.injEq] at hreg
                rw [← hreg] at hpath
                simp only [Logger.rotationAllEntry, Option.some.injEq] at hpath
                exact ⟨".log", by
                  rw [← hpath, String.append_assoc, String.append_assoc]
                  rfl⟩
              · simp at hreg
  · intro other hagree
    rw [construct_serviceName props other hagree]
    cases Logger.construct (.obj props) <;> rfl

/-- C17, an instance: the logger built from `{outputWays: ['File'], rotation: {enabled:
false}}`, and the same configuration with a `serviceName`. -/
theorem construct_paths_undefined_domain_witness :
    fileOnlyLogger.pathOf "file-all" = some "/home/ubuntu/undefined_development.log" ∧
    (∀ entry, fileOnlyLogger.entry "file-all" = some entry →
      fileOnlyLogger.env.toStringJS = .ok fileOnlyLogger.envText ∧
      entry.log.path =
        some (fileOnlyLogger.path ++ "undefined_" ++ fileOnlyLogger.envText ++ ".log")) ∧
    (Logger.construct (.obj (("serviceName", .str "billing") :: fileOnlyOptions))).map
        (fun lg => lg.streams) =
      (Logger.construct (.obj fileOnlyOptions)).map (fun lg => lg.streams) :=
  ⟨rfl, ((construct_paths_undefined_domain fileOnlyOptions).1 fileOnlyLogger rfl).1,
    (construct_paths_undefined_domain fileOnlyOptions).2
      (("serviceName", .str "billing") :: fileOnlyOptions)
      (fun key hkey => by
        have hne : ¬ ("serviceName" = key) := fun h => hkey h.symm
        simp [getProp, List.find?_cons, hne])⟩

/-! ## Fan-out over the constructed registry -/

theorem fanOut_all_accept (stringify : JSValue → Option String) (type : String)
    (record : JSValue) (streams : List (String × LogStream))
    (hmatch : ∀ p ∈ streams, p.2.matchField = none)
    (hcall : ∀ p ∈ streams, p.2.call type record = .ok ()) :
    fanOut stringify type record streams =
      ⟨streams.map (fun p => ⟨p.1, type, record⟩), .ok ()⟩ := by
  induction streams with
  | nil => rfl
  | cons head tail ih =>
    obtain ⟨key, logger⟩ := head
    have hm := hmatch (key, logger) (List.mem_cons_self _ _)
    have hc := hcall (key, logger) (List.mem_cons_self _ _)
    rw [fanOut_cons_ok stringify type record key logger tail (Or.inl hm) hc,
      ih (fun p hp => hmatch p (List.mem_cons_of_mem _ hp))
        (fun p hp => hcall p (List.mem_cons_of_mem _ hp))]
    rfl

theorem registryEntry_matchField (lg : Logger) (key : String) (entry : StreamEntry)
    (h : lg.registryEntry key = some entry) : entry.matchField = .undefined := by
  simp only [Logger.registryEntry] at h
  split at h
  · rw [← Option.some.inj h]
    rfl
  · split at h
    · rw [← Option.some.inj h]
      rfl
    · split at h
      · rw [← Option.some.inj h]
        rfl
      · split at h
        · rw [← Option.some.inj h]
          rfl
        · split at h
          · rw [← Option.some.inj h]
            rfl
          · simp at h

/-- C20 (counterexample): the logger built from `{LEVEL: 'debug', rotation: {}}` registers
`file-errors`, `file-all` and `stdout`; when the logger of `file-errors` throws, `info('x')`
ends with that exception and the registered stream `file-all` receives no call. -/
theorem info_stops_at_throwing_stream :
    Logger.construct (.obj [("LEVEL", .str "debug"), ("rotation", .obj [])]) = .ok debugLogger ∧
    buildRecord [.str "x"] = .ok (.str "x ") ∧
    (debugLogger.info sampleExternal [.str "x"]).result = .error (.thrown "disk full") ∧
    callsTo "file-all" (debugLogger.info sampleExternal [.str "x"]) = [] := by
  refine ⟨rfl, rfl, rfl, rfl⟩

/-- C20 (amended): in a constructed logger no entry of the registry has a `match` field;
hence, when the fold of the arguments gives a record and no logger of the registry throws,
`log` invokes every registered stream exactly once, in the order of the registry, with the
given type and that record, and returns; `info`, `warn` and `error` are `log` with the
types `info`, `warn` and `error`. -/
theorem constructed_logger_fanOut (ext : External) (props : Props) (lg : Logger)
    (h : Logger.construct (.obj props) = .ok lg) :
    (∀ p ∈ lg.streams, p.2.matchField = .undefined) ∧
    (∀ type args record, buildRecord args = .ok record →
      (∀ p ∈ lg.streams, ext.createLogger p.2.log type record = .ok ()) →
      lg.log ext type args = ⟨lg.streams.map (fun p => ⟨p.1, type, record⟩), .ok ()⟩) ∧
    (∀ args, lg.info ext args = lg.log ext "info" args ∧
      lg.warn ext args = lg.log ext "warn" args ∧
      lg.error ext args = lg.log ext "error" args) := by
  obtain ⟨_, _, _, _, hinv⟩ := construct_obj props lg h
  have hmatch : ∀ p ∈ lg.streams, p.2.matchField = .undefined :=
    fun p hp => registryEntry_matchField lg p.1 p.2 (hinv p hp).1
  refine ⟨hmatch, ?_, fun args => ⟨rfl, rfl, rfl⟩⟩
  intro type args record hrec hcall
  simp only [Logger.log, NodeLog.log, hrec]
  rw [fanOut_all_accept]
  · simp [Logger.registry, List.map_map, Function.comp_def]
  · intro p hp
    simp only [Logger.registry, List.mem_map] at hp
    obtain ⟨q, hq, rfl⟩ := hp
    simp [StreamEntry.toLogStream, hmatch q hq, JSValue.truthy]
  · intro p hp
    simp only [Logger.registry, List.mem_map] at hp
    obtain ⟨q, hq, rfl⟩ := hp
    exact hcall q hq

/-- C20 (amended), an instance: the logger built from `{LEVEL: 'debug', rotation: {}}` with
loggers that accept every call. -/
theorem constructed_logger_fanOut_witness :
    (∀ p ∈ debugLogger.streams, p.2.matchField = .undefined) ∧
    debugLogger.log quietExternal "warn" [.str "x"] =
      ⟨debugLogger.streams.map (fun p => ⟨p.1, "warn", .str "x "⟩), .ok ()⟩ ∧
    (debugLogger.log quietExternal "warn" [.str "x"]).calls.map (fun c => c.key) =
      ["file-errors", "file-all", "stdout"] :=
  ⟨(constructed_logger_fanOut quietExternal [("LEVEL", .str "debug"), ("rotation", .obj [])]
      debugLogger rfl).1,
   (constructed_logger_fanOut quietExternal [("LEVEL", .str "debug"), ("rotation", .obj [])]
      debugLogger rfl).2.1 "warn" [.str "x"] (.str "x ") rfl (fun _ _ => rfl),
   rfl⟩

/-! ## Scalar followed by an error or an object -/

end NodeLog
